import Mathlib

/-
  Shallow embedding of the mmu paging simulator (simulacion-mmu).

  Sources embedded:
  - src/types.ts          : data model (frames, logical pages, metrics, state)
  - src/algorithms.ts     : the page-replacement policies and their dispatch table
  - src/SimulationScreen.tsx (processAlgorithmStep) : the simulation engine
  - src/SetupScreen.tsx   : workload generation, serialization and parsing

  Modelling conventions:
  - TypeScript `undefined`-able fields become `Option`.
  - JS numbers that only ever hold integers become `Nat` or `Int`
    (Int where the code subtracts); the percentage metrics, which hold
    JS floating point quotients, are modelled as `Rat`.
  - Thrown JS exceptions become `Except.error`; the non-terminating SC
    sweep is embedded with explicit fuel (`scLoop`), `none` meaning the
    loop is still running after the given number of iterations.
  - The seeded RNG closure (`seedrandom`) is external library code; it is
    abstracted as a stream `Nat → Rat` of the values of its successive
    calls, consumed in call order.
-/

namespace MmuSim

/-- Names of the page replacement algorithms (types.ts, AlgorithmName). -/
inductive AlgorithmName
  | FIFO
  | SC
  | MRU
  | RND
  | OPT
  | LRU
deriving DecidableEq, Repr

/-- String form of an algorithm name, as the TS string literal. -/
def AlgorithmName.str : AlgorithmName → String
  | .FIFO => "FIFO"
  | .SC => "SC"
  | .MRU => "MRU"
  | .RND => "RND"
  | .OPT => "OPT"
  | .LRU => "LRU"

/-- Tag of a ProcessInstruction (types.ts, field `type`). -/
inductive InstructionType
  | new
  | use
  | delete
  | kill
deriving DecidableEq, Repr

instance : BEq InstructionType := ⟨fun a b => decide (a = b)⟩

instance : LawfulBEq InstructionType where
  eq_of_beq h := of_decide_eq_true h
  rfl := decide_eq_true rfl

/-- One instruction (types.ts, ProcessInstruction): `size` only for `new`,
`ptrId` for `new`, `use` and `delete`. -/
structure ProcessInstruction where
  type : InstructionType
  pid : String
  size : Option Nat := none
  ptrId : Option Nat := none
deriving DecidableEq, Repr

/-- A physical RAM frame (types.ts, PageFrame). -/
structure PageFrame where
  frameId : Nat
  logicalPageId : Option String := none
  pid : Option String := none
  isOccupied : Bool
  loadedTimestamp : Option Nat := none
  lastAccessTimestamp : Option Nat := none
  referencedBit : Option Bool := none
deriving DecidableEq, Repr, Inhabited

/-- A logical page of an allocation (types.ts, LogicalPage). -/
structure LogicalPage where
  id : String
  pid : String
  ptrId : Nat
  pageIndexInPtr : Nat
  isLoadedInRam : Bool
  frameId : Option Nat := none
  diskAddress : Option String := none
  ramLoadTimestamp : Option Nat := none
  ramLastAccessTimestamp : Option Nat := none
  referencedBit : Option Bool := none
  contentSizeBytes : Nat
deriving DecidableEq, Repr, Inhabited

/-- Performance metrics (types.ts, AlgorithmMetrics). -/
structure AlgorithmMetrics where
  algorithmName : String
  pageFaults : Nat
  pageHits : Nat
  runningProcessesCount : Nat
  totalSimulationTime : Nat
  ramUsedKb : Int
  ramUsedPercentage : Rat
  vRamUsedKb : Int
  vRamUsedPercentageOfRam : Rat
  thrashingTime : Nat
  thrashingPercentage : Option Rat := none
  internalFragmentationKb : Rat
deriving DecidableEq, Repr

/-- Value of an activePointers entry (types.ts, the mapped record
`\x7b pid; pageIds \x7d` of AlgorithmSimulationState.activePointers). -/
structure ActivePointerInfo where
  pid : String
  pageIds : List String
deriving DecidableEq, Repr

/-- Full per-algorithm simulation state (types.ts,
AlgorithmSimulationState).  The JS `Map` is embedded as an association
list in insertion order; the `rng` closure as the stream of its future
return values. -/
structure AlgorithmSimulationState where
  algorithmName : AlgorithmName
  ramFrames : List PageFrame
  mmu : List LogicalPage
  metrics : AlgorithmMetrics
  scHandPosition : Option Nat
  nextPtrIdToAssign : Nat
  activePointers : List (Nat × ActivePointerInfo)
  rng : Nat → Rat

/-- Context handed to a policy (types.ts, PageReplacementContext).  The
`rng` closure is abstracted by the single value the RND policy would
draw from it. -/
structure PageReplacementContext where
  ramFrames : List PageFrame
  mmu : List LogicalPage
  pageToLoad : LogicalPage
  futureOperations : Option (List ProcessInstruction) := none
  currentOperationIndex : Option Nat := none
  scHandPosition : Option Nat := none
  rng : Rat := 0

/-- Decision returned by a policy (types.ts, PageReplacementDecision). -/
structure PageReplacementDecision where
  victimFrameId : Nat
  victimLogicalPageId : Option String := none
  nextScHandPosition : Option Nat := none
  pagesWhoseRBitShouldBeCleared : Option (List String) := none
deriving DecidableEq, Repr

/-- JS truthiness of an optional string: `undefined` and the empty string
are falsy. -/
def strTruthy : Option String → Bool
  | none => false
  | some s => s != ""

/-- JS comparison `a < b` on two optional numbers: false whenever either
side is `undefined` (NaN comparisons are false). -/
def jsLtOpt : Option Nat → Option Nat → Bool
  | some a, some b => a < b
  | _, _ => false

/-- Helper of algorithms.ts (getLogicalPageFromFrame): the logical page a
frame currently holds, looked up in the MMU by id. -/
def getLogicalPageFromFrame (frame : PageFrame) (mmu : List LogicalPage) :
    Option LogicalPage :=
  match frame.logicalPageId with
  | none => none
  | some lid =>
    if frame.isOccupied && lid != "" then mmu.find? (fun p => p.id == lid)
    else none

/-- FIFO policy (algorithms.ts, fifoAlgorithm): the occupied frame with
the smallest loadedTimestamp (JS `<` on possibly-undefined numbers). -/
def fifoAlgorithm (context : PageReplacementContext) :
    Except String PageReplacementDecision :=
  let oldestFrame := context.ramFrames.foldl
    (fun acc frame =>
      if frame.isOccupied then
        match acc with
        | none => some frame
        | some old =>
          if jsLtOpt frame.loadedTimestamp old.loadedTimestamp then some frame
          else some old
      else acc)
    none
  match oldestFrame with
  | none => .error "[FIFO] No hay marcos ocupados para elegir una victima."
  | some f =>
    .ok { victimFrameId := f.frameId, victimLogicalPageId := f.logicalPageId }

/-- One outcome of an SC sweep iteration: either keep sweeping with new
accumulator and hand, or stop with a result. -/
private def scStep (context : PageReplacementContext) (numFrames : Nat)
    (pos : Nat) (acc : List String) :
    Sum (List String × Nat) (Except String PageReplacementDecision) :=
  match context.ramFrames.get? pos with
  | none => .inr (.error "[SC] TypeError: marco indefinido")
  | some frame =>
    if frame.isOccupied then
      match getLogicalPageFromFrame frame context.mmu with
      | some logicalPage =>
        if logicalPage.referencedBit.getD false then
          .inl (acc ++ [logicalPage.id], (pos + 1) % numFrames)
        else
          .inr (.ok { victimFrameId := frame.frameId,
                      victimLogicalPageId := frame.logicalPageId,
                      nextScHandPosition := some ((pos + 1) % numFrames),
                      pagesWhoseRBitShouldBeCleared := some acc })
      | none => .inl (acc, (pos + 1) % numFrames)
    else .inl (acc, (pos + 1) % numFrames)

/-- The SC `while (true)` sweep (algorithms.ts, scAlgorithm), with explicit
fuel: `none` means the loop has not terminated within `fuel` iterations.
After each advance the source checks whether every occupied page was
already marked for clearing and, if so, falls back to evicting the page
at the original hand position. -/
def scLoop (context : PageReplacementContext) (numFrames origHand : Nat) :
    Nat → Nat → List String → Option (Except String PageReplacementDecision)
  | 0, _, _ => none
  | fuel + 1, pos, acc =>
    match scStep context numFrames pos acc with
    | .inr r => some r
    | .inl (acc2, pos2) =>
      let occupiedFrameCount := (context.ramFrames.filter (·.isOccupied)).length
      if acc2.length ≥ occupiedFrameCount ∧ occupiedFrameCount > 0 then
        match context.ramFrames.get? origHand with
        | none => some (.error "[SC] TypeError: marco indefinido")
        | some originalHandFrame =>
          if originalHandFrame.isOccupied = false then
            some (.error "[SC] Error: Fallback de SC a marco no ocupado.")
          else
            some (.ok { victimFrameId := originalHandFrame.frameId,
                        victimLogicalPageId := originalHandFrame.logicalPageId,
                        nextScHandPosition := some ((origHand + 1) % numFrames),
                        pagesWhoseRBitShouldBeCleared :=
                          some (acc2.filter
                            (fun id => !(originalHandFrame.logicalPageId == some id))) })
      else scLoop context numFrames origHand fuel pos2 acc2

/-- SC policy wrapper (algorithms.ts, scAlgorithm): runs the sweep with
enough fuel for every terminating execution of the JS loop; fuel
exhaustion marks the executions on which the JS loop never returns. -/
def scAlgorithm (context : PageReplacementContext) :
    Except String PageReplacementDecision :=
  let numFrames := context.ramFrames.length
  let h0 := context.scHandPosition.getD 0
  match scLoop context numFrames h0 (numFrames * numFrames + numFrames + 2) h0 [] with
  | some r => r
  | none => .error "[SC] el barrido no termina"

/-- MRU policy (algorithms.ts, mruAlgorithm): occupied frame whose page
has the largest ramLastAccessTimestamp (initial best time is -1; a page
with no timestamp is only taken when no frame was chosen yet). -/
def mruAlgorithm (context : PageReplacementContext) :
    Except String PageReplacementDecision :=
  let st := context.ramFrames.foldl
    (fun (st : Option PageFrame × Int) frame =>
      if frame.isOccupied then
        match getLogicalPageFromFrame frame context.mmu with
        | some logicalPage =>
          match logicalPage.ramLastAccessTimestamp with
          | some ts =>
            if (ts : Int) > st.2 then (some frame, (ts : Int)) else st
          | none => if st.1.isNone then (some frame, st.2) else st
        | none => st
      else st)
    (none, -1)
  match st.1 with
  | none => .error "[MRU] No hay marcos ocupados para elegir una victima."
  | some f =>
    .ok { victimFrameId := f.frameId, victimLogicalPageId := f.logicalPageId }

/-- RND policy (algorithms.ts, rndAlgorithm): a uniformly drawn occupied
frame; an out-of-range draw would make the JS code dereference
`undefined`. -/
def rndAlgorithm (context : PageReplacementContext) :
    Except String PageReplacementDecision :=
  let occupiedFrames := context.ramFrames.filter (·.isOccupied)
  if occupiedFrames.length = 0 then
    .error "[RND] No hay marcos ocupados para elegir una victima."
  else
    let randomIndex : Int := Rat.floor (context.rng * (occupiedFrames.length : Rat))
    if randomIndex < 0 then .error "[RND] TypeError: marco indefinido"
    else
      match occupiedFrames.get? randomIndex.toNat with
      | none => .error "[RND] TypeError: marco indefinido"
      | some victimFrame =>
        .ok { victimFrameId := victimFrame.frameId,
              victimLogicalPageId := victimFrame.logicalPageId }

/-- Distance from currentOperationIndex to the next `use` of a given ptrId
in the instruction stream (algorithms.ts, the inner loop of optAlgorithm);
`none` is the JS `Infinity` (no future use). -/
def instrNextUse (futureOperations : List ProcessInstruction)
    (currentOperationIndex : Nat) (ptrId : Nat) : Option Nat :=
  (futureOperations.drop currentOperationIndex).findIdx?
    (fun futureOp => futureOp.type == .use && futureOp.ptrId == some ptrId)

/-- JS comparison `d > best` of optAlgorithm where `d` is a next-use
distance (`none` = Infinity) and `best` is the running maximum, which
starts at -1 (`none`).  `Infinity > Infinity` is false. -/
def distGtAcc : Option Nat → Option (Option Nat) → Bool
  | _, none => true
  | none, some none => false
  | none, some (some _) => true
  | some _, some none => false
  | some a, some (some b) => b < a

/-- One iteration of the occupied-frames loop of optAlgorithm: skip
frames whose page is not in the MMU; otherwise compute the next-use
distance and take the frame when the distance strictly exceeds the
running maximum. -/
def optFoldStep (mmu : List LogicalPage) (futureOperations : List ProcessInstruction)
    (currentOperationIndex : Nat)
    (st : Option PageFrame × Option (Option Nat)) (frame : PageFrame) :
    Option PageFrame × Option (Option Nat) :=
  match getLogicalPageFromFrame frame mmu with
  | none => st
  | some logicalPageInFrame =>
    let d := instrNextUse futureOperations currentOperationIndex
      logicalPageInFrame.ptrId
    if distGtAcc d st.2 then (some frame, some d) else st

/-- OPT policy (algorithms.ts, optAlgorithm): evict the occupied frame
whose page's next future `use` is farthest away, keeping the first
(smallest position) frame on ties; frames whose page is not found in the
MMU are skipped, and if no frame was chosen the first occupied frame is
taken. -/
def optAlgorithm (context : PageReplacementContext) :
    Except String PageReplacementDecision :=
  match context.futureOperations, context.currentOperationIndex with
  | some futureOperations, some currentOperationIndex =>
    let occupiedFrames := context.ramFrames.filter (·.isOccupied)
    if occupiedFrames.length = 0 then
      .error "[OPT] No hay marcos ocupados para elegir una victima."
    else
      let st := occupiedFrames.foldl
        (optFoldStep context.mmu futureOperations currentOperationIndex)
        (none, none)
      match st.1 with
      | some victimFrame =>
        .ok { victimFrameId := victimFrame.frameId,
              victimLogicalPageId := victimFrame.logicalPageId }
      | none =>
        match occupiedFrames.get? 0 with
        | some victimFrame =>
          .ok { victimFrameId := victimFrame.frameId,
                victimLogicalPageId := victimFrame.logicalPageId }
        | none => .error "[OPT] TypeError: marco indefinido"
  | _, _ =>
    .error "[OPT] Faltan operaciones futuras o el indice actual para tomar una decision."

/-- Dispatch table (algorithms.ts, pageReplacementAlgorithms).  The source
Record lists FIFO, SC, MRU, RND and OPT; it has no LRU key, so the JS
lookup for LRU yields `undefined`. -/
def pageReplacementAlgorithms :
    AlgorithmName → Option (PageReplacementContext → Except String PageReplacementDecision)
  | .FIFO => some fifoAlgorithm
  | .SC => some scAlgorithm
  | .MRU => some mruAlgorithm
  | .RND => some rndAlgorithm
  | .OPT => some optAlgorithm
  | .LRU => none

/-! Engine constants (SimulationScreen.tsx). -/

def PAGE_SIZE_BYTES : Nat := 4 * 1024
def PAGE_SIZE_KB : Nat := 4
def TOTAL_RAM_FRAMES : Nat := 100
def TOTAL_RAM_KB : Nat := TOTAL_RAM_FRAMES * PAGE_SIZE_KB
def HIT_TIME : Nat := 1
def FAULT_TIME : Nat := 5

/-- Decimal digit character. -/
def digitChar (d : Nat) : Char := Char.ofNat (48 + d)

/-- Decimal digits of a number, most significant first, with fuel for
structural recursion. -/
def natChars : Nat → Nat → List Char
  | 0, _ => []
  | fuel + 1, n =>
    if n < 10 then [digitChar n]
    else natChars fuel (n / 10) ++ [digitChar (n % 10)]

/-- Decimal rendering of a number, as JS template interpolation does. -/
def natToString (n : Nat) : String := ⟨natChars (n + 1) n⟩

/-- Logical page id template of processAlgorithmStep:
ptr...page..._pid... -/
def mkPageId (ptrId i : Nat) (pid : String) : String :=
  "ptr" ++ natToString ptrId ++ "_page" ++ natToString i ++ "_pid" ++ pid

/-- Lookup in the activePointers Map. -/
def mapGet (m : List (Nat × ActivePointerInfo)) (k : Nat) :
    Option ActivePointerInfo :=
  (m.find? (fun e => e.1 == k)).map (·.2)

/-- Map.set: update in place when the key exists, else append (insertion
order is preserved, as for a JS Map). -/
def mapSet (m : List (Nat × ActivePointerInfo)) (k : Nat)
    (v : ActivePointerInfo) : List (Nat × ActivePointerInfo) :=
  if (m.find? (fun e => e.1 == k)).isSome then
    m.map (fun e => if e.1 == k then (k, v) else e)
  else m ++ [(k, v)]

/-- Map.delete. -/
def mapDelete (m : List (Nat × ActivePointerInfo)) (k : Nat) :
    List (Nat × ActivePointerInfo) :=
  m.filter (fun e => e.1 != k)

/-- Clearing of one scheduled reference bit (the forEach body of the SC
post-decision handling in processAlgorithmStep): clear the bit on the
page and on its frame, for pages currently loaded. -/
def clearRBit (s : AlgorithmSimulationState) (idToClear : String) :
    AlgorithmSimulationState :=
  match s.mmu.findIdx? (fun p => p.id == idToClear) with
  | some pi =>
    let pageToUpdate := s.mmu.getD pi default
    if pageToUpdate.isLoadedInRam then
      let s := { s with
        mmu := s.mmu.set pi { pageToUpdate with referencedBit := some false } }
      match s.ramFrames.findIdx? (fun f => f.logicalPageId == some idToClear) with
      | some fi =>
        let fr := s.ramFrames.getD fi default
        { s with ramFrames := s.ramFrames.set fi { fr with referencedBit := some false } }
      | none => s
    else s
  | none => s

/-- SC post-decision handling of processAlgorithmStep (inlined twice in
the source, in the `new` and `use` fault paths): move the hand and clear
the reference bit of every page the decision scheduled for clearing. -/
def applyScDecision (s : AlgorithmSimulationState)
    (decision : PageReplacementDecision) : AlgorithmSimulationState :=
  (decision.pagesWhoseRBitShouldBeCleared.getD []).foldl clearRBit
    { s with scHandPosition := decision.nextScHandPosition }

/-- Builds the replacement context of processAlgorithmStep: futureOperations
and currentOperationIndex only for OPT; the RND draw is the next value of
the state's rng stream. -/
def mkReplacementContext (s : AlgorithmSimulationState) (pageToLoad : LogicalPage)
    (allOpsForOpt : List ProcessInstruction) (currentOpIdxForOpt : Nat) :
    PageReplacementContext :=
  { ramFrames := s.ramFrames,
    mmu := s.mmu,
    pageToLoad := pageToLoad,
    futureOperations := if s.algorithmName == .OPT then some allOpsForOpt else none,
    currentOperationIndex := if s.algorithmName == .OPT then some currentOpIdxForOpt else none,
    scHandPosition := s.scHandPosition,
    rng := s.rng 0 }

/-- Advances the state's rng stream past the single draw the RND policy
makes; no other policy calls the rng closure. -/
def consumeRngIfRnd (s : AlgorithmSimulationState) : AlgorithmSimulationState :=
  if s.algorithmName == .RND then { s with rng := fun n => s.rng (n + 1) } else s

/-- Eviction of the page a victim frame holds (the block the source
repeats in the `new` and `use` fault paths): mark the victim's logical
page as swapped out with a symbolic disk address; it stays in the MMU
and the evicted kilobytes move to virtual RAM. -/
def evictVictimPage (s : AlgorithmSimulationState) (victimFrame : PageFrame) :
    AlgorithmSimulationState :=
  if strTruthy victimFrame.logicalPageId then
    match s.mmu.findIdx? (fun p => some p.id == victimFrame.logicalPageId) with
    | some vIdx =>
      let victimLogicalPage := s.mmu.getD vIdx default
      { s with
        mmu := s.mmu.set vIdx { victimLogicalPage with
          isLoadedInRam := false,
          frameId := none,
          diskAddress := some ("disk_" ++ victimLogicalPage.id) },
        metrics := { s.metrics with
          vRamUsedKb := s.metrics.vRamUsedKb + PAGE_SIZE_KB } }
    | none => s
  else s

/-- Body of the per-page loop of the `new` case of processAlgorithmStep:
create the logical page, push it into the MMU, and either place it in a
free frame (hit) or, on fault, run the policy and install it in the
victim's frame.  The returned Bool is true when the loop must break
because no policy function exists for the algorithm. -/
def placeNewPage (allOpsForOpt : List ProcessInstruction) (currentOpIdxForOpt : Nat)
    (pid : String) (assignedPtrId size numPagesNeeded i : Nat)
    (s : AlgorithmSimulationState) :
    Except String (AlgorithmSimulationState × Bool) :=
  let logicalPageId := mkPageId assignedPtrId i pid
  let contentSize :=
    if i = numPagesNeeded - 1 then
      (if size % PAGE_SIZE_BYTES = 0 then PAGE_SIZE_BYTES else size % PAGE_SIZE_BYTES)
    else PAGE_SIZE_BYTES
  let newPage : LogicalPage :=
    { id := logicalPageId,
      pid := pid,
      ptrId := assignedPtrId,
      pageIndexInPtr := i,
      isLoadedInRam := false,
      contentSizeBytes := contentSize,
      diskAddress := some ("disk_" ++ logicalPageId),
      referencedBit := if s.algorithmName == .SC then some false else none }
  let pageIdx := s.mmu.length
  let s := { s with
    mmu := s.mmu ++ [newPage],
    metrics := { s.metrics with vRamUsedKb := s.metrics.vRamUsedKb + PAGE_SIZE_KB } }
  match s.ramFrames.findIdx? (fun f => !f.isOccupied) with
  | some freeIdx =>
    let freeFrame := s.ramFrames.getD freeIdx default
    let t := s.metrics.totalSimulationTime
    let page1 := { newPage with
      isLoadedInRam := true,
      frameId := some freeFrame.frameId,
      diskAddress := none,
      ramLoadTimestamp := some t,
      ramLastAccessTimestamp := some t }
    let frame1 := { freeFrame with
      isOccupied := true,
      logicalPageId := some newPage.id,
      pid := some pid,
      loadedTimestamp := some t,
      lastAccessTimestamp := some t,
      referencedBit := newPage.referencedBit }
    .ok ({ s with
      mmu := s.mmu.set pageIdx page1,
      ramFrames := s.ramFrames.set freeIdx frame1,
      metrics := { s.metrics with
        pageHits := s.metrics.pageHits + 1,
        totalSimulationTime := s.metrics.totalSimulationTime + HIT_TIME,
        ramUsedKb := s.metrics.ramUsedKb + PAGE_SIZE_KB,
        vRamUsedKb := s.metrics.vRamUsedKb - PAGE_SIZE_KB } }, false)
  | none =>
    let s := { s with metrics := { s.metrics with
      pageFaults := s.metrics.pageFaults + 1,
      totalSimulationTime := s.metrics.totalSimulationTime + FAULT_TIME,
      thrashingTime := s.metrics.thrashingTime + FAULT_TIME } }
    match pageReplacementAlgorithms s.algorithmName with
    | none => .ok (s, true)
    | some algoFn =>
      let context := mkReplacementContext s newPage allOpsForOpt currentOpIdxForOpt
      let s := consumeRngIfRnd s
      match algoFn context with
      | .error e => .error e
      | .ok decision =>
        match s.ramFrames.get? decision.victimFrameId with
        | none => .error "TypeError: marco victima indefinido"
        | some victimFrame =>
          let s := evictVictimPage s victimFrame
          let t := s.metrics.totalSimulationTime
          let page1 := { newPage with
            isLoadedInRam := true,
            frameId := some victimFrame.frameId,
            diskAddress := none,
            ramLoadTimestamp := some t,
            ramLastAccessTimestamp := some t }
          let frame1 := { victimFrame with
            isOccupied := true,
            logicalPageId := some newPage.id,
            pid := some pid,
            loadedTimestamp := some t,
            lastAccessTimestamp := some t,
            referencedBit := newPage.referencedBit }
          let s := { s with
            mmu := s.mmu.set pageIdx page1,
            ramFrames := s.ramFrames.set decision.victimFrameId frame1,
            metrics := { s.metrics with
              ramUsedKb := s.metrics.ramUsedKb + PAGE_SIZE_KB,
              vRamUsedKb := s.metrics.vRamUsedKb - PAGE_SIZE_KB } }
          let s := if s.algorithmName == .SC then applyScDecision s decision else s
          .ok (s, false)

/-- The `for` loop over the pages of a `new` (processAlgorithmStep): the
page id is recorded before the placement work; return the state and the
recorded ids, stopping early when the body breaks. -/
def processNewPages (allOpsForOpt : List ProcessInstruction) (currentOpIdxForOpt : Nat)
    (pid : String) (assignedPtrId size numPagesNeeded : Nat) :
    Nat → Nat → List String → AlgorithmSimulationState →
    Except String (AlgorithmSimulationState × List String)
  | 0, _, ids, s => .ok (s, ids)
  | left + 1, i, ids, s =>
    let ids := ids ++ [mkPageId assignedPtrId i pid]
    match placeNewPage allOpsForOpt currentOpIdxForOpt pid assignedPtrId size
        numPagesNeeded i s with
    | .error e => .error e
    | .ok (s2, broke) =>
      if broke then .ok (s2, ids)
      else processNewPages allOpsForOpt currentOpIdxForOpt pid assignedPtrId size
        numPagesNeeded left (i + 1) ids s2

/-- The `new` case of processAlgorithmStep: invalid instructions (missing
size or ptrId) are logged and skipped; otherwise allocate
ceil(size / 4096) pages and register the pointer. -/
def handleNew (s : AlgorithmSimulationState) (operation : ProcessInstruction)
    (allOpsForOpt : List ProcessInstruction) (currentOpIdxForOpt : Nat) :
    Except String AlgorithmSimulationState :=
  match operation.size, operation.ptrId with
  | some size, some assignedPtrId =>
    let numPagesNeeded := (size + PAGE_SIZE_BYTES - 1) / PAGE_SIZE_BYTES
    match processNewPages allOpsForOpt currentOpIdxForOpt operation.pid assignedPtrId
        size numPagesNeeded numPagesNeeded 0 [] s with
    | .error e => .error e
    | .ok (s2, newLogicalPageIds) =>
      .ok { s2 with
        activePointers := mapSet s2.activePointers assignedPtrId
          { pid := operation.pid, pageIds := newLogicalPageIds },
        nextPtrIdToAssign := max s2.nextPtrIdToAssign (assignedPtrId + 1) }
  | _, _ => .ok s

/-- Fault-path frame selection of the `use` case of processAlgorithmStep:
either the first free frame, or the policy's victim after evicting it
and (for SC) committing the decision.  Returns the state so far and the
target frame id; `ok none` encodes the JS `break` taken when the
algorithm has no policy function. -/
def useFaultTarget (allOpsForOpt : List ProcessInstruction)
    (currentOpIdxForOpt : Nat) (page : LogicalPage)
    (s : AlgorithmSimulationState) :
    Except String (Option (AlgorithmSimulationState × Nat)) :=
  match s.ramFrames.findIdx? (fun f => !f.isOccupied) with
  | some fi => .ok (some (s, (s.ramFrames.getD fi default).frameId))
  | none =>
    match pageReplacementAlgorithms s.algorithmName with
    | none => .ok none
    | some algoFn =>
      let context := mkReplacementContext s page allOpsForOpt currentOpIdxForOpt
      let s := consumeRngIfRnd s
      match algoFn context with
      | .error e => .error e
      | .ok decision =>
        let targetFrameId := decision.victimFrameId
        match s.ramFrames.get? targetFrameId with
        | none => .error "TypeError: marco victima indefinido"
        | some victimFrameToEvict =>
          let s := evictVictimPage s victimFrameToEvict
          let s := if s.algorithmName == .SC then applyScDecision s decision else s
          .ok (some (s, targetFrameId))

/-- Body of the per-page loop of the `use` case of processAlgorithmStep.
The returned Bool is true when the loop must break (no policy function).
The last-access timestamp (and the SC reference bit) is written before
the hit/fault cost; on fault the page is brought in at the post-cost
time. -/
def processUsePage (allOpsForOpt : List ProcessInstruction)
    (currentOpIdxForOpt : Nat) (logicalPageId : String)
    (s : AlgorithmSimulationState) :
    Except String (AlgorithmSimulationState × Bool) :=
  match s.mmu.findIdx? (fun p => p.id == logicalPageId) with
  | none => .ok (s, false)
  | some pIdx =>
    let page := s.mmu.getD pIdx default
    let t0 := s.metrics.totalSimulationTime
    let page := { page with
      ramLastAccessTimestamp := some t0,
      referencedBit := if s.algorithmName == .SC then some true else page.referencedBit }
    let s := { s with mmu := s.mmu.set pIdx page }
    let frameInRamIdx :=
      if page.isLoadedInRam then
        s.ramFrames.findIdx? (fun f => some f.frameId == page.frameId)
      else none
    match frameInRamIdx with
    | some fIdx =>
      let frameInRam := s.ramFrames.getD fIdx default
      let frameInRam := { frameInRam with
        lastAccessTimestamp := some t0,
        referencedBit :=
          if s.algorithmName == .SC then some true else frameInRam.referencedBit }
      .ok ({ s with
        ramFrames := s.ramFrames.set fIdx frameInRam,
        metrics := { s.metrics with
          pageHits := s.metrics.pageHits + 1,
          totalSimulationTime := s.metrics.totalSimulationTime + HIT_TIME } }, false)
    | none =>
      let s := { s with metrics := { s.metrics with
        pageFaults := s.metrics.pageFaults + 1,
        totalSimulationTime := s.metrics.totalSimulationTime + FAULT_TIME,
        thrashingTime := s.metrics.thrashingTime + FAULT_TIME } }
      let freeIdx := s.ramFrames.findIdx? (fun f => !f.isOccupied)
      match useFaultTarget allOpsForOpt currentOpIdxForOpt page s with
      | .error e => .error e
      | .ok none => .ok (s, true)
      | .ok (some (s, targetFrameId)) =>
        match s.ramFrames.get? targetFrameId with
        | none => .error "TypeError: marco destino indefinido"
        | some frameToLoadInto =>
          let page2 := { s.mmu.getD pIdx default with
            isLoadedInRam := true,
            frameId := some frameToLoadInto.frameId,
            diskAddress := none,
            ramLoadTimestamp := some s.metrics.totalSimulationTime }
          let frame2 := { frameToLoadInto with
            isOccupied := true,
            logicalPageId := some page2.id,
            pid := some page2.pid,
            loadedTimestamp := page2.ramLoadTimestamp,
            lastAccessTimestamp := page2.ramLastAccessTimestamp,
            referencedBit := page2.referencedBit }
          .ok ({ s with
            mmu := s.mmu.set pIdx page2,
            ramFrames := s.ramFrames.set targetFrameId frame2,
            metrics := { s.metrics with
              ramUsedKb := s.metrics.ramUsedKb +
                (if freeIdx.isSome then (PAGE_SIZE_KB : Int) else 0),
              vRamUsedKb := s.metrics.vRamUsedKb - PAGE_SIZE_KB } }, false)

/-- The `for ... of pointerInfo.pageIds` loop of the `use` case. -/
def processUsePages (allOpsForOpt : List ProcessInstruction)
    (currentOpIdxForOpt : Nat) :
    List String → AlgorithmSimulationState → Except String AlgorithmSimulationState
  | [], s => .ok s
  | lid :: rest, s =>
    match processUsePage allOpsForOpt currentOpIdxForOpt lid s with
    | .error e => .error e
    | .ok (s2, broke) =>
      if broke then .ok s2
      else processUsePages allOpsForOpt currentOpIdxForOpt rest s2

/-- The `use` case of processAlgorithmStep: an unknown or missing ptrId is
logged and skipped. -/
def handleUse (s : AlgorithmSimulationState) (operation : ProcessInstruction)
    (allOpsForOpt : List ProcessInstruction) (currentOpIdxForOpt : Nat) :
    Except String AlgorithmSimulationState :=
  match operation.ptrId with
  | none => .ok s
  | some ptrId =>
    match mapGet s.activePointers ptrId with
    | none => .ok s
    | some pointerInfo =>
      processUsePages allOpsForOpt currentOpIdxForOpt pointerInfo.pageIds s

/-- Removal of one page in the `delete` case of processAlgorithmStep: a
resident page frees its frame (clearing every per-frame field); a swapped
page only releases virtual RAM; the page leaves the MMU. -/
def deleteOnePage (s : AlgorithmSimulationState) (logicalPageId : String) :
    Except String AlgorithmSimulationState :=
  match s.mmu.findIdx? (fun p => p.id == logicalPageId) with
  | none => .ok s
  | some pageIndex =>
    let page := s.mmu.getD pageIndex default
    if page.isLoadedInRam && page.frameId.isSome then
      let fid := page.frameId.getD 0
      match s.ramFrames.get? fid with
      | none => .error "TypeError: marco indefinido en delete"
      | some frame =>
        .ok { s with
          ramFrames := s.ramFrames.set fid { frame with
            isOccupied := false,
            logicalPageId := none,
            pid := none,
            loadedTimestamp := none,
            lastAccessTimestamp := none,
            referencedBit := none },
          metrics := { s.metrics with
            ramUsedKb := s.metrics.ramUsedKb - PAGE_SIZE_KB },
          mmu := s.mmu.eraseIdx pageIndex }
    else
      .ok { s with
        metrics := { s.metrics with
          vRamUsedKb := s.metrics.vRamUsedKb - PAGE_SIZE_KB },
        mmu := s.mmu.eraseIdx pageIndex }

/-- The page loop of the `delete` case. -/
def processDeletePages :
    List String → AlgorithmSimulationState → Except String AlgorithmSimulationState
  | [], s => .ok s
  | lid :: rest, s =>
    match deleteOnePage s lid with
    | .error e => .error e
    | .ok s2 => processDeletePages rest s2

/-- The `delete` case of processAlgorithmStep: unknown or missing ptrIds
are skipped; otherwise every page of the pointer is removed and the
pointer leaves activePointers. -/
def handleDelete (s : AlgorithmSimulationState) (operation : ProcessInstruction) :
    Except String AlgorithmSimulationState :=
  match operation.ptrId with
  | none => .ok s
  | some ptrId =>
    match mapGet s.activePointers ptrId with
    | none => .ok s
    | some pointerInfo =>
      match processDeletePages pointerInfo.pageIds s with
      | .error e => .error e
      | .ok s2 => .ok { s2 with activePointers := mapDelete s2.activePointers ptrId }

/-- Removal of one page in the `kill` case: the source clears only
isOccupied, logicalPageId and pid on the frame (the remaining fields are
left as they were). -/
def killOnePage (s : AlgorithmSimulationState) (logicalPageId : String) :
    Except String AlgorithmSimulationState :=
  match s.mmu.findIdx? (fun p => p.id == logicalPageId) with
  | none => .ok s
  | some pageIndex =>
    let page := s.mmu.getD pageIndex default
    if page.isLoadedInRam && page.frameId.isSome then
      let fid := page.frameId.getD 0
      match s.ramFrames.get? fid with
      | none => .error "TypeError: marco indefinido en kill"
      | some frame =>
        .ok { s with
          ramFrames := s.ramFrames.set fid { frame with
            isOccupied := false,
            logicalPageId := none,
            pid := none },
          metrics := { s.metrics with
            ramUsedKb := s.metrics.ramUsedKb - PAGE_SIZE_KB },
          mmu := s.mmu.eraseIdx pageIndex }
    else
      .ok { s with
        metrics := { s.metrics with
          vRamUsedKb := s.metrics.vRamUsedKb - PAGE_SIZE_KB },
        mmu := s.mmu.eraseIdx pageIndex }

/-- The page loop of the `kill` case. -/
def processKillPages :
    List String → AlgorithmSimulationState → Except String AlgorithmSimulationState
  | [], s => .ok s
  | lid :: rest, s =>
    match killOnePage s lid with
    | .error e => .error e
    | .ok s2 => processKillPages rest s2

/-- The per-pointer loop of the `kill` case. -/
def processKillPtrs :
    List Nat → AlgorithmSimulationState → Except String AlgorithmSimulationState
  | [], s => .ok s
  | ptrId :: rest, s =>
    match mapGet s.activePointers ptrId with
    | none => processKillPtrs rest s
    | some pointerInfo =>
      match processKillPages pointerInfo.pageIds s with
      | .error e => .error e
      | .ok s2 =>
        processKillPtrs rest { s2 with activePointers := mapDelete s2.activePointers ptrId }

/-- The `kill` case of processAlgorithmStep: every pointer of the killed
pid is removed with delete-like semantics. -/
def handleKill (s : AlgorithmSimulationState) (operation : ProcessInstruction) :
    Except String AlgorithmSimulationState :=
  let ptrIdsToKill := (s.activePointers.filter (fun e => e.2.pid == operation.pid)).map (·.1)
  processKillPtrs ptrIdsToKill s

/-- Number of distinct pids among the active pointers (the Set the source
builds in step 2 of processAlgorithmStep). -/
def countDistinctPids (aps : List (Nat × ActivePointerInfo)) : Nat :=
  (aps.foldl (fun acc e => if acc.contains e.2.pid then acc else acc ++ [e.2.pid]) []).length

/-- Internal fragmentation recomputed from the frames and the MMU (the
fold at the end of processAlgorithmStep). -/
def computeFragmentation (ramFrames : List PageFrame) (mmu : List LogicalPage) : Rat :=
  ramFrames.foldl
    (fun acc frame =>
      if frame.isOccupied && strTruthy frame.logicalPageId then
        match mmu.find? (fun p => some p.id == frame.logicalPageId) with
        | some logicalPage =>
          acc + ((PAGE_SIZE_BYTES : Rat) - (logicalPage.contentSizeBytes : Rat)) / 1024
        | none => acc
      else acc)
    0

/-- Step 2 of processAlgorithmStep: recompute runningProcessesCount, the
percentages and the internal fragmentation from the authoritative
state. -/
def recomputeCommonMetrics (s : AlgorithmSimulationState) : AlgorithmSimulationState :=
  { s with metrics := { s.metrics with
      runningProcessesCount := countDistinctPids s.activePointers,
      ramUsedPercentage := ((s.metrics.ramUsedKb : Rat) / (TOTAL_RAM_KB : Rat)) * 100,
      vRamUsedPercentageOfRam :=
        if s.metrics.vRamUsedKb > 0 then
          ((s.metrics.vRamUsedKb : Rat) / (TOTAL_RAM_KB : Rat)) * 100
        else 0,
      internalFragmentationKb := computeFragmentation s.ramFrames s.mmu } }

/-- One engine step (SimulationScreen.tsx, processAlgorithmStep): handle
the instruction, then recompute the derived metrics.  A thrown JS
exception (policy error, dereference of undefined) is an `error`. -/
def processAlgorithmStep (currentSimState : AlgorithmSimulationState)
    (operation : ProcessInstruction) (allOpsForOpt : List ProcessInstruction)
    (currentOpIdxForOpt : Nat) : Except String AlgorithmSimulationState :=
  let r :=
    match operation.type with
    | .new => handleNew currentSimState operation allOpsForOpt currentOpIdxForOpt
    | .use => handleUse currentSimState operation allOpsForOpt currentOpIdxForOpt
    | .delete => handleDelete currentSimState operation
    | .kill => handleKill currentSimState operation
  r.map recomputeCommonMetrics

/-- Initial per-algorithm state (SimulationScreen.tsx,
getInitialAlgorithmSimulationState); the seeded rng closure is abstracted
by the stream parameter. -/
def getInitialAlgorithmSimulationState (name : AlgorithmName) (rng : Nat → Rat)
    (initialPtrId : Nat) : AlgorithmSimulationState :=
  { algorithmName := name,
    ramFrames := (List.range TOTAL_RAM_FRAMES).map
      (fun i => { frameId := i, isOccupied := false }),
    mmu := [],
    metrics :=
      { algorithmName := name.str,
        pageFaults := 0,
        pageHits := 0,
        runningProcessesCount := 0,
        totalSimulationTime := 0,
        ramUsedKb := 0,
        ramUsedPercentage := 0,
        vRamUsedKb := 0,
        vRamUsedPercentageOfRam := 0,
        thrashingTime := 0,
        internalFragmentationKb := 0 },
    scHandPosition := some 0,
    nextPtrIdToAssign := initialPtrId,
    activePointers := [],
    rng := rng }

/-- Applies the listed instructions in order, as runSimulationStep does:
each step receives the full instruction list and the index of the
instruction being applied. -/
def runStepsFrom (allOps : List ProcessInstruction) :
    Nat → List ProcessInstruction → AlgorithmSimulationState →
    Except String AlgorithmSimulationState
  | _, [], s => .ok s
  | i, op :: rest, s =>
    match processAlgorithmStep s op allOps i with
    | .error e => .error e
    | .ok s2 => runStepsFrom allOps (i + 1) rest s2

/-- State after the first k instructions of a session, from the initial
state. -/
def runPrefix (name : AlgorithmName) (rng : Nat → Rat) (initialPtrId : Nat)
    (operations : List ProcessInstruction) (k : Nat) :
    Except String AlgorithmSimulationState :=
  runStepsFrom operations 0 (operations.take k)
    (getInitialAlgorithmSimulationState name rng initialPtrId)

/-! Lemmas about the policies on a RAM with no occupied frame. -/

lemma filter_isOccupied_nil {l : List PageFrame}
    (h : ∀ f ∈ l, f.isOccupied = false) : l.filter (·.isOccupied) = [] := by
  rw [List.filter_eq_nil_iff]
  intro a ha
  simp [h a ha]

lemma fifoAlgorithm_empty {ctx : PageReplacementContext}
    (h : ∀ f ∈ ctx.ramFrames, f.isOccupied = false) :
    fifoAlgorithm ctx = .error "[FIFO] No hay marcos ocupados para elegir una victima." := by
  unfold fifoAlgorithm
  have key : ∀ (l : List PageFrame), (∀ f ∈ l, f.isOccupied = false) →
      ∀ (a : Option PageFrame),
      (l.foldl (fun acc frame =>
        if frame.isOccupied then
          match acc with
          | none => some frame
          | some old =>
            if jsLtOpt frame.loadedTimestamp old.loadedTimestamp then some frame
            else some old
        else acc) a) = a := by
    intro l hl
    induction l with
    | nil => intro a; rfl
    | cons x xs ih =>
      intro a
      have hx : x.isOccupied = false := hl x (by simp)
      simp only [List.foldl_cons, hx, Bool.false_eq_true, if_false]
      exact ih (fun f hf => hl f (by simp [hf])) a
  rw [key ctx.ramFrames h none]

lemma mruAlgorithm_empty {ctx : PageReplacementContext}
    (h : ∀ f ∈ ctx.ramFrames, f.isOccupied = false) :
    mruAlgorithm ctx = .error "[MRU] No hay marcos ocupados para elegir una victima." := by
  unfold mruAlgorithm
  have key : ∀ (l : List PageFrame), (∀ f ∈ l, f.isOccupied = false) →
      ∀ (a : Option PageFrame × Int),
      (l.foldl (fun st frame =>
        if frame.isOccupied then
          match getLogicalPageFromFrame frame ctx.mmu with
          | some logicalPage =>
            match logicalPage.ramLastAccessTimestamp with
            | some ts =>
              if (ts : Int) > st.2 then (some frame, (ts : Int)) else st
            | none => if st.1.isNone then (some frame, st.2) else st
          | none => st
        else st) a) = a := by
    intro l hl
    induction l with
    | nil => intro a; rfl
    | cons x xs ih =>
      intro a
      have hx : x.isOccupied = false := hl x (by simp)
      simp only [List.foldl_cons, hx, Bool.false_eq_true, if_false]
      exact ih (fun f hf => hl f (by simp [hf])) a
  rw [key ctx.ramFrames h (none, -1)]

lemma rndAlgorithm_empty {ctx : PageReplacementContext}
    (h : ∀ f ∈ ctx.ramFrames, f.isOccupied = false) :
    rndAlgorithm ctx = .error "[RND] No hay marcos ocupados para elegir una victima." := by
  unfold rndAlgorithm
  rw [filter_isOccupied_nil h]
  rfl

lemma optAlgorithm_empty {ctx : PageReplacementContext}
    (h : ∀ f ∈ ctx.ramFrames, f.isOccupied = false) :
    (optAlgorithm ctx).toOption = none := by
  unfold optAlgorithm
  match hf : ctx.futureOperations, hc : ctx.currentOperationIndex with
  | none, _ => rfl
  | some fo, none => rfl
  | some fo, some ci =>
    rw [filter_isOccupied_nil h]
    rfl

lemma scLoop_empty_ram {ctx : PageReplacementContext}
    (h : ∀ f ∈ ctx.ramFrames, f.isOccupied = false)
    (hlen : 0 < ctx.ramFrames.length) (origHand : Nat) :
    ∀ fuel pos acc, pos < ctx.ramFrames.length →
      scLoop ctx ctx.ramFrames.length origHand fuel pos acc = none := by
  intro fuel
  induction fuel with
  | zero => intro pos acc _; rfl
  | succ n ih =>
    intro pos acc hpos
    obtain ⟨f, hf⟩ : ∃ f, ctx.ramFrames.get? pos = some f := by
      rw [List.get?_eq_get hpos]; exact ⟨_, rfl⟩
    have hocc : f.isOccupied = false := h f (List.get?_mem hf)
    have hfilter : ctx.ramFrames.filter (·.isOccupied) = [] := filter_isOccupied_nil h
    unfold scLoop scStep
    rw [hf]
    simp only [hocc, Bool.false_eq_true, if_false, hfilter]
    simp only [List.length_nil, ge_iff_le, Nat.le_zero, gt_iff_lt, Nat.lt_irrefl,
      and_false, if_false]
    exact ih _ acc (Nat.mod_lt _ hlen)

/-- Claim C1: the policy dispatch table has no entry for LRU.  The
AlgorithmName enumeration (and the Record type of the table) includes
LRU, and the setup screen offers it, but the source Record in
algorithms.ts lists only FIFO, SC, MRU, RND and OPT, so the engine's
lookup for LRU yields undefined and no LRU eviction rule exists. -/
theorem c1_lru_dispatch_entry_missing :
    pageReplacementAlgorithms AlgorithmName.LRU = none := rfl

/-- Claim C2: on a replacement context with no occupied frame, FIFO, MRU,
RND and OPT do raise an error, but the claim fails for the other two of
the six policies: the SC sweep never terminates (for every amount of
fuel the loop is still running), and LRU has no policy function at
all. -/
theorem c2_policies_on_empty_ram (ctx : PageReplacementContext)
    (h : ∀ f ∈ ctx.ramFrames, f.isOccupied = false)
    (hlen : 0 < ctx.ramFrames.length) :
    (fifoAlgorithm ctx).toOption = none ∧
    (mruAlgorithm ctx).toOption = none ∧
    (rndAlgorithm ctx).toOption = none ∧
    (optAlgorithm ctx).toOption = none ∧
    (∀ fuel acc, ctx.scHandPosition.getD 0 < ctx.ramFrames.length →
      scLoop ctx ctx.ramFrames.length (ctx.scHandPosition.getD 0) fuel
        (ctx.scHandPosition.getD 0) acc = none) ∧
    pageReplacementAlgorithms AlgorithmName.LRU = none := by
  refine ⟨?_, ?_, ?_, ?_, ?_, rfl⟩
  · rw [fifoAlgorithm_empty h]; rfl
  · rw [mruAlgorithm_empty h]; rfl
  · rw [rndAlgorithm_empty h]; rfl
  · exact optAlgorithm_empty h
  · intro fuel acc hpos
    exact scLoop_empty_ram h hlen _ fuel _ acc hpos

/-- A concrete empty-RAM context: the frames of the initial engine state
and an arbitrary page to load. -/
def emptyRamCtx : PageReplacementContext :=
  { ramFrames := (List.range TOTAL_RAM_FRAMES).map
      (fun i => { frameId := i, isOccupied := false }),
    mmu := [],
    pageToLoad :=
      { id := "x", pid := "P1", ptrId := 1, pageIndexInPtr := 0,
        isLoadedInRam := false, contentSizeBytes := 100 },
    scHandPosition := some 0 }

/-- Witness for claim C2 at the concrete context emptyRamCtx. -/
theorem c2_policies_on_empty_ram_witness :
    (∀ f ∈ emptyRamCtx.ramFrames, f.isOccupied = false) ∧
    0 < emptyRamCtx.ramFrames.length ∧
    (fifoAlgorithm emptyRamCtx).toOption = none ∧
    (scLoop emptyRamCtx emptyRamCtx.ramFrames.length 0 1000 0 [] = none) := by
  have h1 : ∀ f ∈ emptyRamCtx.ramFrames, f.isOccupied = false := by decide
  have h2 : 0 < emptyRamCtx.ramFrames.length := by decide
  obtain ⟨ha, -, -, -, hs, -⟩ := c2_policies_on_empty_ram emptyRamCtx h1 h2
  exact ⟨h1, h2, ha, hs 1000 [] (by decide)⟩

/-! Time accounting: totalSimulationTime, thrashingTime, pageHits and
pageFaults stay mutually consistent through every engine path. -/

/-- Textbook accounting of the four incrementally maintained metrics. -/
def MetricsBalanced (m : AlgorithmMetrics) : Prop :=
  m.totalSimulationTime = HIT_TIME * m.pageHits + FAULT_TIME * m.pageFaults ∧
  m.thrashingTime = FAULT_TIME * m.pageFaults

lemma clearRBit_metrics (s : AlgorithmSimulationState) (idToClear : String) :
    (clearRBit s idToClear).metrics = s.metrics := by
  unfold clearRBit
  split
  · simp only []
    split
    · split <;> rfl
    · rfl
  · rfl

lemma applyScDecision_metrics (s : AlgorithmSimulationState)
    (d : PageReplacementDecision) :
    (applyScDecision s d).metrics = s.metrics := by
  unfold applyScDecision
  generalize d.pagesWhoseRBitShouldBeCleared.getD [] = ids
  have key : ∀ (l : List String) (t : AlgorithmSimulationState),
      (l.foldl clearRBit t).metrics = t.metrics := by
    intro l
    induction l with
    | nil => intro t; rfl
    | cons x xs ih =>
      intro t
      simp only [List.foldl_cons]
      rw [ih, clearRBit_metrics]
  exact key ids _

lemma consumeRngIfRnd_metrics (s : AlgorithmSimulationState) :
    (consumeRngIfRnd s).metrics = s.metrics := by
  unfold consumeRngIfRnd
  split <;> rfl

/-- The four incrementally maintained metrics, bundled. -/
def coreMetrics (m : AlgorithmMetrics) : Nat × Nat × Nat × Nat :=
  (m.pageHits, m.pageFaults, m.totalSimulationTime, m.thrashingTime)

lemma metricsBalanced_of_core {m m' : AlgorithmMetrics}
    (h : coreMetrics m = coreMetrics m') (hb : MetricsBalanced m') :
    MetricsBalanced m := by
  unfold coreMetrics at h
  simp only [Prod.mk.injEq] at h
  obtain ⟨e1, e2, e3, e4⟩ := h
  obtain ⟨b1, b2⟩ := hb
  exact ⟨by rw [e1, e2, e3, b1], by rw [e2, e4, b2]⟩

lemma evictVictimPage_pageHits (s : AlgorithmSimulationState) (f : PageFrame) :
    (evictVictimPage s f).metrics.pageHits = s.metrics.pageHits := by
  unfold evictVictimPage
  split
  · split <;> rfl
  · rfl

lemma evictVictimPage_pageFaults (s : AlgorithmSimulationState) (f : PageFrame) :
    (evictVictimPage s f).metrics.pageFaults = s.metrics.pageFaults := by
  unfold evictVictimPage
  split
  · split <;> rfl
  · rfl

lemma evictVictimPage_totalSimulationTime (s : AlgorithmSimulationState) (f : PageFrame) :
    (evictVictimPage s f).metrics.totalSimulationTime =
      s.metrics.totalSimulationTime := by
  unfold evictVictimPage
  split
  · split <;> rfl
  · rfl

lemma evictVictimPage_thrashingTime (s : AlgorithmSimulationState) (f : PageFrame) :
    (evictVictimPage s f).metrics.thrashingTime = s.metrics.thrashingTime := by
  unfold evictVictimPage
  split
  · split <;> rfl
  · rfl

lemma evictVictimPage_ramUsedKb (s : AlgorithmSimulationState) (f : PageFrame) :
    (evictVictimPage s f).metrics.ramUsedKb = s.metrics.ramUsedKb := by
  unfold evictVictimPage
  split
  · split <;> rfl
  · rfl

lemma metricsBalanced_placeNewPage {allOps : List ProcessInstruction}
    {curIdx : Nat} {pid : String} {ptrId size numPages i : Nat}
    {s s' : AlgorithmSimulationState} {b : Bool}
    (hb : MetricsBalanced s.metrics)
    (hok : placeNewPage allOps curIdx pid ptrId size numPages i s = .ok (s', b)) :
    MetricsBalanced s'.metrics := by
  obtain ⟨h1, h2⟩ := hb
  unfold placeNewPage at hok
  simp only [] at hok
  split at hok
  · -- free frame: a hit
    cases hok
    constructor
    · simp only [HIT_TIME, FAULT_TIME] at h1 ⊢; omega
    · simpa using h2
  · -- fault path
    split at hok
    · -- no policy function: break
      cases hok
      constructor
      · simp only [HIT_TIME, FAULT_TIME] at h1 ⊢; omega
      · simp only [HIT_TIME, FAULT_TIME] at h2 ⊢; omega
    · -- policy ran
      split at hok
      · exact absurd hok (by simp)
      · split at hok
        · exact absurd hok (by simp)
        · -- victim frame found
          cases hok
          simp only [HIT_TIME, FAULT_TIME] at h1 h2
          constructor <;>
          · simp only [apply_ite AlgorithmSimulationState.metrics,
              applyScDecision_metrics, ite_self, evictVictimPage_pageHits,
              evictVictimPage_pageFaults, evictVictimPage_totalSimulationTime,
              evictVictimPage_thrashingTime, consumeRngIfRnd_metrics,
              HIT_TIME, FAULT_TIME]
            omega

lemma metricsBalanced_processNewPages {allOps : List ProcessInstruction}
    {curIdx : Nat} {pid : String} {ptrId size numPages : Nat} :
    ∀ {left i : Nat} {ids : List String} {s s' : AlgorithmSimulationState}
      {ids' : List String},
      MetricsBalanced s.metrics →
      processNewPages allOps curIdx pid ptrId size numPages left i ids s =
        .ok (s', ids') →
      MetricsBalanced s'.metrics := by
  intro left
  induction left with
  | zero =>
    intro i ids s s' ids' hb hok
    unfold processNewPages at hok
    cases hok
    exact hb
  | succ n ih =>
    intro i ids s s' ids' hb hok
    unfold processNewPages at hok
    simp only [] at hok
    split at hok
    · exact absurd hok (by simp)
    · rename_i s2 broke heq
      have hb2 : MetricsBalanced s2.metrics := metricsBalanced_placeNewPage hb heq
      split at hok
      · cases hok; exact hb2
      · exact ih hb2 hok

lemma metricsBalanced_handleNew {s s' : AlgorithmSimulationState}
    {op : ProcessInstruction} {allOps : List ProcessInstruction} {curIdx : Nat}
    (hb : MetricsBalanced s.metrics)
    (hok : handleNew s op allOps curIdx = .ok s') :
    MetricsBalanced s'.metrics := by
  unfold handleNew at hok
  split at hok
  · simp only [] at hok
    split at hok
    · exact absurd hok (by simp)
    · rename_i s2 ids heq
      have hb2 : MetricsBalanced s2.metrics := metricsBalanced_processNewPages hb heq
      cases hok
      exact hb2
  · cases hok; exact hb

lemma coreMetrics_useFaultTarget {allOps : List ProcessInstruction}
    {curIdx : Nat} {page : LogicalPage} {s s2 : AlgorithmSimulationState}
    {t : Nat}
    (hok : useFaultTarget allOps curIdx page s = .ok (some (s2, t))) :
    coreMetrics s2.metrics = coreMetrics s.metrics := by
  unfold useFaultTarget at hok
  simp only [] at hok
  repeat' split at hok
  all_goals first
    | (cases hok <;>
       simp only [coreMetrics, apply_ite AlgorithmSimulationState.metrics,
         applyScDecision_metrics, ite_self, evictVictimPage_pageHits,
         evictVictimPage_pageFaults, evictVictimPage_totalSimulationTime,
         evictVictimPage_thrashingTime, consumeRngIfRnd_metrics])
    | (simp at hok)

lemma metricsBalanced_processUsePage {allOps : List ProcessInstruction}
    {curIdx : Nat} {lid : String} {s s' : AlgorithmSimulationState} {b : Bool}
    (hb : MetricsBalanced s.metrics)
    (hok : processUsePage allOps curIdx lid s = .ok (s', b)) :
    MetricsBalanced s'.metrics := by
  obtain ⟨h1, h2⟩ := hb
  simp only [HIT_TIME, FAULT_TIME] at h1 h2
  unfold processUsePage at hok
  simp only [] at hok
  split at hok
  · -- page not found: state unchanged
    cases hok
    exact ⟨by simpa [HIT_TIME, FAULT_TIME] using h1,
           by simpa [HIT_TIME, FAULT_TIME] using h2⟩
  · rename_i pIdx heqP
    split at hok
    · -- hit
      cases hok
      constructor <;>
      · simp only [MetricsBalanced, HIT_TIME, FAULT_TIME]
        omega
    · -- fault
      split at hok
      · exact absurd hok (by simp)
      · -- break: no policy
        cases hok
        constructor <;>
        · simp only [MetricsBalanced, HIT_TIME, FAULT_TIME]
          omega
      · -- a target was produced
        rename_i s2 target heqT
        have hcore : coreMetrics s2.metrics =
            coreMetrics { s.metrics with
              pageFaults := s.metrics.pageFaults + 1,
              totalSimulationTime := s.metrics.totalSimulationTime + FAULT_TIME,
              thrashingTime := s.metrics.thrashingTime + FAULT_TIME } :=
          coreMetrics_useFaultTarget heqT
        unfold coreMetrics at hcore
        simp only [Prod.mk.injEq] at hcore
        obtain ⟨e1, e2, e3, e4⟩ := hcore
        split at hok
        · exact absurd hok (by simp)
        · cases hok
          constructor <;>
          · simp only [MetricsBalanced, HIT_TIME, FAULT_TIME, e1, e2, e3, e4]
            omega

lemma metricsBalanced_processUsePages {allOps : List ProcessInstruction}
    {curIdx : Nat} :
    ∀ {lids : List String} {s s' : AlgorithmSimulationState},
      MetricsBalanced s.metrics →
      processUsePages allOps curIdx lids s = .ok s' →
      MetricsBalanced s'.metrics := by
  intro lids
  induction lids with
  | nil =>
    intro s s' hb hok
    cases hok
    exact hb
  | cons x xs ih =>
    intro s s' hb hok
    unfold processUsePages at hok
    split at hok
    · exact absurd hok (by simp)
    · rename_i s2 broke heq
      have hb2 : MetricsBalanced s2.metrics := metricsBalanced_processUsePage hb heq
      split at hok
      · cases hok; exact hb2
      · exact ih hb2 hok

lemma metricsBalanced_handleUse {s s' : AlgorithmSimulationState}
    {op : ProcessInstruction} {allOps : List ProcessInstruction} {curIdx : Nat}
    (hb : MetricsBalanced s.metrics)
    (hok : handleUse s op allOps curIdx = .ok s') :
    MetricsBalanced s'.metrics := by
  unfold handleUse at hok
  split at hok
  · cases hok; exact hb
  · split at hok
    · cases hok; exact hb
    · exact metricsBalanced_processUsePages hb hok

lemma metricsBalanced_deleteOnePage {s s' : AlgorithmSimulationState}
    {lid : String}
    (hb : MetricsBalanced s.metrics)
    (hok : deleteOnePage s lid = .ok s') :
    MetricsBalanced s'.metrics := by
  obtain ⟨h1, h2⟩ := hb
  unfold deleteOnePage at hok
  simp only [] at hok
  repeat' split at hok
  all_goals first
    | (cases hok <;> exact ⟨h1, h2⟩)
    | (simp at hok)

lemma metricsBalanced_processDeletePages :
    ∀ {lids : List String} {s s' : AlgorithmSimulationState},
      MetricsBalanced s.metrics →
      processDeletePages lids s = .ok s' →
      MetricsBalanced s'.metrics := by
  intro lids
  induction lids with
  | nil => intro s s' hb hok; cases hok; exact hb
  | cons x xs ih =>
    intro s s' hb hok
    unfold processDeletePages at hok
    split at hok
    · exact absurd hok (by simp)
    · rename_i s2 heq
      exact ih (metricsBalanced_deleteOnePage hb heq) hok

lemma metricsBalanced_handleDelete {s s' : AlgorithmSimulationState}
    {op : ProcessInstruction}
    (hb : MetricsBalanced s.metrics)
    (hok : handleDelete s op = .ok s') :
    MetricsBalanced s'.metrics := by
  unfold handleDelete at hok
  split at hok
  · cases hok; exact hb
  · split at hok
    · cases hok; exact hb
    · split at hok
      · exact absurd hok (by simp)
      · rename_i s2 heq
        have hb2 : MetricsBalanced s2.metrics :=
          metricsBalanced_processDeletePages hb heq
        cases hok
        exact hb2

lemma metricsBalanced_killOnePage {s s' : AlgorithmSimulationState}
    {lid : String}
    (hb : MetricsBalanced s.metrics)
    (hok : killOnePage s lid = .ok s') :
    MetricsBalanced s'.metrics := by
  obtain ⟨h1, h2⟩ := hb
  unfold killOnePage at hok
  simp only [] at hok
  repeat' split at hok
  all_goals first
    | (cases hok <;> exact ⟨h1, h2⟩)
    | (simp at hok)

lemma metricsBalanced_processKillPages :
    ∀ {lids : List String} {s s' : AlgorithmSimulationState},
      MetricsBalanced s.metrics →
      processKillPages lids s = .ok s' →
      MetricsBalanced s'.metrics := by
  intro lids
  induction lids with
  | nil => intro s s' hb hok; cases hok; exact hb
  | cons x xs ih =>
    intro s s' hb hok
    unfold processKillPages at hok
    split at hok
    · exact absurd hok (by simp)
    · rename_i s2 heq
      exact ih (metricsBalanced_killOnePage hb heq) hok

lemma metricsBalanced_processKillPtrs :
    ∀ {ptrs : List Nat} {s s' : AlgorithmSimulationState},
      MetricsBalanced s.metrics →
      processKillPtrs ptrs s = .ok s' →
      MetricsBalanced s'.metrics := by
  intro ptrs
  induction ptrs with
  | nil => intro s s' hb hok; cases hok; exact hb
  | cons x xs ih =>
    intro s s' hb hok
    unfold processKillPtrs at hok
    split at hok
    · exact ih hb hok
    · split at hok
      · exact absurd hok (by simp)
      · rename_i s2 heq
        refine ih ?_ hok
        have hb2 : MetricsBalanced s2.metrics :=
          metricsBalanced_processKillPages hb heq
        exact hb2

lemma metricsBalanced_handleKill {s s' : AlgorithmSimulationState}
    {op : ProcessInstruction}
    (hb : MetricsBalanced s.metrics)
    (hok : handleKill s op = .ok s') :
    MetricsBalanced s'.metrics := by
  unfold handleKill at hok
  exact metricsBalanced_processKillPtrs hb hok

lemma recomputeCommonMetrics_core (s : AlgorithmSimulationState) :
    coreMetrics (recomputeCommonMetrics s).metrics = coreMetrics s.metrics := rfl

lemma metricsBalanced_recompute {s : AlgorithmSimulationState}
    (hb : MetricsBalanced s.metrics) :
    MetricsBalanced (recomputeCommonMetrics s).metrics := by
  exact metricsBalanced_of_core (recomputeCommonMetrics_core s) hb

lemma metricsBalanced_processAlgorithmStep {s s' : AlgorithmSimulationState}
    {op : ProcessInstruction} {allOps : List ProcessInstruction} {curIdx : Nat}
    (hb : MetricsBalanced s.metrics)
    (hok : processAlgorithmStep s op allOps curIdx = .ok s') :
    MetricsBalanced s'.metrics := by
  unfold processAlgorithmStep at hok
  simp only [] at hok
  cases hop : op.type <;> rw [hop] at hok <;> simp only [] at hok
  case new =>
    cases hr : handleNew s op allOps curIdx with
    | error e => rw [hr] at hok; simp [Except.map] at hok
    | ok t =>
      rw [hr] at hok
      simp only [Except.map] at hok
      cases hok
      exact metricsBalanced_recompute (metricsBalanced_handleNew hb hr)
  case use =>
    cases hr : handleUse s op allOps curIdx with
    | error e => rw [hr] at hok; simp [Except.map] at hok
    | ok t =>
      rw [hr] at hok
      simp only [Except.map] at hok
      cases hok
      exact metricsBalanced_recompute (metricsBalanced_handleUse hb hr)
  case delete =>
    cases hr : handleDelete s op with
    | error e => rw [hr] at hok; simp [Except.map] at hok
    | ok t =>
      rw [hr] at hok
      simp only [Except.map] at hok
      cases hok
      exact metricsBalanced_recompute (metricsBalanced_handleDelete hb hr)
  case kill =>
    cases hr : handleKill s op with
    | error e => rw [hr] at hok; simp [Except.map] at hok
    | ok t =>
      rw [hr] at hok
      simp only [Except.map] at hok
      cases hok
      exact metricsBalanced_recompute (metricsBalanced_handleKill hb hr)

lemma metricsBalanced_runStepsFrom {allOps : List ProcessInstruction} :
    ∀ {ops : List ProcessInstruction} {i : Nat}
      {s s' : AlgorithmSimulationState},
      MetricsBalanced s.metrics →
      runStepsFrom allOps i ops s = .ok s' →
      MetricsBalanced s'.metrics := by
  intro ops
  induction ops with
  | nil => intro i s s' hb hok; cases hok; exact hb
  | cons op rest ih =>
    intro i s s' hb hok
    unfold runStepsFrom at hok
    split at hok
    · exact absurd hok (by simp)
    · rename_i s2 heq
      exact ih (metricsBalanced_processAlgorithmStep hb heq) hok

/-- Claim C4: after every instruction of every run from the initial
state, totalSimulationTime = HIT_TIME times pageHits plus FAULT_TIME
times pageFaults, thrashingTime = FAULT_TIME times pageFaults, and hence
thrashingTime is at most totalSimulationTime. -/
theorem c4_time_accounting (name : AlgorithmName) (rng : Nat → Rat)
    (initialPtrId : Nat) (operations : List ProcessInstruction) (k : Nat)
    (s : AlgorithmSimulationState)
    (h : runPrefix name rng initialPtrId operations k = .ok s) :
    s.metrics.totalSimulationTime =
      HIT_TIME * s.metrics.pageHits + FAULT_TIME * s.metrics.pageFaults ∧
    s.metrics.thrashingTime = FAULT_TIME * s.metrics.pageFaults ∧
    s.metrics.thrashingTime ≤ s.metrics.totalSimulationTime := by
  have h0 : MetricsBalanced
      (getInitialAlgorithmSimulationState name rng initialPtrId).metrics := by
    constructor <;> rfl
  have hb : MetricsBalanced s.metrics := metricsBalanced_runStepsFrom h0 h
  obtain ⟨b1, b2⟩ := hb
  refine ⟨b1, b2, ?_⟩
  rw [b1, b2]
  simp only [HIT_TIME, FAULT_TIME]
  omega

/-- Witness for claim C4: a concrete one-instruction FIFO run. -/
theorem c4_time_accounting_witness :
    ∃ s, runPrefix AlgorithmName.FIFO (fun _ => 0) 1
        [{ type := .new, pid := "P1", size := some 100, ptrId := some 1 }] 1 =
        .ok s ∧
      s.metrics.thrashingTime ≤ s.metrics.totalSimulationTime := by
  have hsome : (runPrefix AlgorithmName.FIFO (fun _ => 0) 1
      [{ type := .new, pid := "P1", size := some 100, ptrId := some 1 }] 1).toOption.isSome = true := by
    rfl
  cases hr : runPrefix AlgorithmName.FIFO (fun _ => 0) 1
      [{ type := .new, pid := "P1", size := some 100, ptrId := some 1 }] 1 with
  | error e => rw [hr] at hsome; simp [Except.toOption] at hsome
  | ok s =>
    exact ⟨s, rfl, (c4_time_accounting AlgorithmName.FIFO (fun _ => 0) 1 _ 1 s hr).2.2⟩

/-! Concrete runs exhibiting the RAM-accounting and timestamp behaviour
of the fault path of the `new` instruction. -/

/-- One allocation of 101 pages (413696 = 101 times 4096 bytes): the
first 100 placements fill RAM and the 101st goes through the
replacement path. -/
def c7FailingOp : ProcessInstruction :=
  { type := .new, pid := "P1", size := some 413696, ptrId := some 1 }

/-- The session applying only c7FailingOp under FIFO. -/
def c7Run : Except String AlgorithmSimulationState :=
  runPrefix AlgorithmName.FIFO (fun _ => 0) 1 [c7FailingOp] 1

set_option maxRecDepth 20000 in
/-- Claim C7: the RAM accounting invariant fails on the `new` fault path.
After the single instruction new(P1, 413696) (101 pages, FIFO), the run
succeeds and leaves ramUsedKb = 404 although only 100 logical pages are
resident and no frame is free: the source adds PAGE_SIZE_KB on a
replacement in `new` (its `use` path correctly adds 0), so
ramUsedKb = 404 differs from 4 x 100 = 400 = 400 - 4 x 0. -/
theorem c7_ram_accounting_violated :
    c7Run.toOption.map (fun s => s.metrics.ramUsedKb) = some 404 ∧
    c7Run.toOption.map
      (fun s => (s.mmu.filter (fun p => p.isLoadedInRam)).length) = some 100 ∧
    c7Run.toOption.map
      (fun s => (s.ramFrames.filter (fun f => !f.isOccupied)).length) = some 0 ∧
    (404 : Int) ≠ 4 * 100 ∧
    (404 : Int) + 4 * 0 ≠ 400 := by
  refine ⟨by rfl, by rfl, by rfl, by decide, by decide⟩

/-- First instruction of the C3 scenario: 100 pages, filling RAM
exactly; afterwards totalSimulationTime = 100. -/
def c3op1 : ProcessInstruction :=
  { type := .new, pid := "P1", size := some 409600, ptrId := some 1 }

/-- Second instruction of the C3 scenario: one more page, forcing the
replacement path of `new`. -/
def c3op2 : ProcessInstruction :=
  { type := .new, pid := "P1", size := some 1, ptrId := some 2 }

/-- The C3 session under FIFO. -/
def c3Run (k : Nat) : Except String AlgorithmSimulationState :=
  runPrefix AlgorithmName.FIFO (fun _ => 0) 1 [c3op1, c3op2] k

set_option maxRecDepth 20000 in
/-- Claim C3 counterexample: the instruction c3op2 begins with
total_time = 100, but the load and last-access timestamps recorded for
its (fault-path) placement are 105 = 100 + FAULT_TIME: the source adds
the fault cost to totalSimulationTime before stamping, so the recorded
timestamps differ from the value of total_time at the moment the event
begins, contradicting the claim. -/
theorem c3_timestamps_counterexample :
    (c3Run 1).toOption.map (fun s => s.metrics.totalSimulationTime) = some 100 ∧
    (c3Run 2).toOption.map
      (fun s => (s.mmu.find? (fun p => p.id == "ptr2_page0_pidP1")).map
        (fun p => (p.ramLoadTimestamp, p.ramLastAccessTimestamp))) =
      some (some (some 105, some 105)) ∧
    (c3Run 2).toOption.map
      (fun s => (s.ramFrames.find? (fun f =>
        f.logicalPageId == some "ptr2_page0_pidP1")).map
        (fun f => f.loadedTimestamp)) = some (some (some 105)) ∧
    (105 : Nat) ≠ 100 := by
  refine ⟨by rfl, by rfl, by rfl, by decide⟩

/-! Timestamp anatomy of the placement paths (for the amended claim C3). -/

/-- The two timestamps of a logical page. -/
def pageStamps (p : LogicalPage) : Option Nat × Option Nat :=
  (p.ramLoadTimestamp, p.ramLastAccessTimestamp)

lemma get?_set_map_stamps {l : List LogicalPage} {pi : Nat} {p' : LogicalPage}
    (hpi : pi < l.length) (hst : pageStamps p' = pageStamps (l.getD pi default))
    (i : Nat) :
    ((l.set pi p').get? i).map pageStamps = (l.get? i).map pageStamps := by
  by_cases h : pi = i
  · subst h
    rw [List.get?_set_eq_of_lt _ hpi, List.get?_eq_get hpi]
    simp only [Option.map_some']
    rw [hst, List.getD_eq_getElem l default hpi]
    rfl
  · rw [List.get?_set_ne _ _ h]

lemma clearRBit_stamps (s : AlgorithmSimulationState) (idc : String) (i : Nat) :
    ((clearRBit s idc).mmu.get? i).map pageStamps =
      (s.mmu.get? i).map pageStamps := by
  unfold clearRBit
  split
  · rename_i pi hfind
    have hpi : pi < s.mmu.length :=
      ((List.findIdx?_eq_some_iff_findIdx_eq).1 hfind).1
    simp only []
    split
    · split
      · dsimp only
        refine get?_set_map_stamps hpi ?_ i
        rfl
      · dsimp only
        refine get?_set_map_stamps hpi ?_ i
        rfl
    · rfl
  · rfl

lemma applyScDecision_stamps (s : AlgorithmSimulationState)
    (d : PageReplacementDecision) (i : Nat) :
    ((applyScDecision s d).mmu.get? i).map pageStamps =
      (s.mmu.get? i).map pageStamps := by
  unfold applyScDecision
  generalize d.pagesWhoseRBitShouldBeCleared.getD [] = ids
  have key : ∀ (l : List String) (t : AlgorithmSimulationState),
      ((l.foldl clearRBit t).mmu.get? i).map pageStamps =
        (t.mmu.get? i).map pageStamps := by
    intro l
    induction l with
    | nil => intro t; rfl
    | cons x xs ih =>
      intro t
      simp only [List.foldl_cons]
      rw [ih, clearRBit_stamps]
  exact key ids _

lemma ite_applySc_stamps (c : Bool) (t : AlgorithmSimulationState)
    (d : PageReplacementDecision) (i : Nat) :
    (((if c then applyScDecision t d else t)).mmu.get? i).map pageStamps =
      (t.mmu.get? i).map pageStamps := by
  cases c
  · rfl
  · simpa using applyScDecision_stamps t d i

lemma evictVictimPage_stamps (s : AlgorithmSimulationState) (f : PageFrame)
    (i : Nat) :
    ((evictVictimPage s f).mmu.get? i).map pageStamps =
      (s.mmu.get? i).map pageStamps := by
  unfold evictVictimPage
  split
  · split
    · rename_i vIdx hfind
      have hvi : vIdx < s.mmu.length :=
        ((List.findIdx?_eq_some_iff_findIdx_eq).1 hfind).1
      dsimp only
      refine get?_set_map_stamps hvi ?_ i
      rfl
    · rfl
  · rfl

lemma evictVictimPage_mmu_length (s : AlgorithmSimulationState) (f : PageFrame) :
    (evictVictimPage s f).mmu.length = s.mmu.length := by
  unfold evictVictimPage
  split
  · split
    · simp
    · rfl
  · rfl

lemma evictVictimPage_ramFrames (s : AlgorithmSimulationState) (f : PageFrame) :
    (evictVictimPage s f).ramFrames = s.ramFrames := by
  unfold evictVictimPage
  split
  · split <;> rfl
  · rfl

lemma consumeRngIfRnd_mmu (s : AlgorithmSimulationState) :
    (consumeRngIfRnd s).mmu = s.mmu := by
  unfold consumeRngIfRnd
  split <;> rfl

lemma applyScDecision_mmu_length (s : AlgorithmSimulationState)
    (d : PageReplacementDecision) :
    (applyScDecision s d).mmu.length = s.mmu.length := by
  unfold applyScDecision
  generalize d.pagesWhoseRBitShouldBeCleared.getD [] = ids
  have key : ∀ (l : List String) (t : AlgorithmSimulationState),
      (l.foldl clearRBit t).mmu.length = t.mmu.length := by
    intro l
    induction l with
    | nil => intro t; rfl
    | cons x xs ih =>
      intro t
      simp only [List.foldl_cons]
      rw [ih]
      unfold clearRBit
      split
      · simp only []
        split
        · split <;> simp
        · rfl
      · rfl
  exact key ids _

/-- Stamp preservation through the `use` fault-path target selection: the
target computation never touches the timestamps of MMU pages. -/
lemma useFaultTarget_stamps {allOps : List ProcessInstruction} {curIdx : Nat}
    {page : LogicalPage} {s s2 : AlgorithmSimulationState} {t : Nat}
    (hok : useFaultTarget allOps curIdx page s = .ok (some (s2, t)))
    (i : Nat) :
    (s2.mmu.get? i).map pageStamps = (s.mmu.get? i).map pageStamps := by
  unfold useFaultTarget at hok
  simp only [] at hok
  repeat' split at hok
  all_goals first
    | (cases hok <;>
       rw [applyScDecision_stamps, evictVictimPage_stamps, consumeRngIfRnd_mmu])
    | (cases hok <;>
       rw [evictVictimPage_stamps, consumeRngIfRnd_mmu])
    | (cases hok <;> rfl)
    | (simp at hok)

lemma useFaultTarget_mmu_length {allOps : List ProcessInstruction} {curIdx : Nat}
    {page : LogicalPage} {s s2 : AlgorithmSimulationState} {t : Nat}
    (hok : useFaultTarget allOps curIdx page s = .ok (some (s2, t))) :
    s2.mmu.length = s.mmu.length := by
  unfold useFaultTarget at hok
  simp only [] at hok
  repeat' split at hok
  all_goals first
    | (cases hok <;>
       rw [applyScDecision_mmu_length, evictVictimPage_mmu_length, consumeRngIfRnd_mmu])
    | (cases hok <;>
       rw [evictVictimPage_mmu_length, consumeRngIfRnd_mmu])
    | (cases hok <;> rfl)
    | (simp at hok)

/-- Claim C3, amended: timestamps of free-frame placements in `new` are
recorded before the cost (they equal total_time at the event start), but
fault-path placements record their load timestamp (and, in `new`, the
last-access timestamp) only after FAULT_TIME has been added; in `use`
the last-access timestamp is still recorded before the cost.  Part one:
`new` with a free frame; part two: `new` through replacement; part
three: `use` through the fault path. -/
theorem c3_amended_timestamp_convention :
    (∀ (allOps : List ProcessInstruction) (curIdx : Nat) (pid : String)
       (ptrId size numPages i : Nat) (s s' : AlgorithmSimulationState)
       (b : Bool) (fi : Nat),
       s.ramFrames.findIdx? (fun f => !f.isOccupied) = some fi →
       placeNewPage allOps curIdx pid ptrId size numPages i s = .ok (s', b) →
       (s'.mmu.get? s.mmu.length).map pageStamps =
         some (some s.metrics.totalSimulationTime,
               some s.metrics.totalSimulationTime) ∧
       (s'.ramFrames.get? fi).map
           (fun f => (f.loadedTimestamp, f.lastAccessTimestamp)) =
         some (some s.metrics.totalSimulationTime,
               some s.metrics.totalSimulationTime) ∧
       s'.metrics.totalSimulationTime =
         s.metrics.totalSimulationTime + HIT_TIME) ∧
    (∀ (allOps : List ProcessInstruction) (curIdx : Nat) (pid : String)
       (ptrId size numPages i : Nat) (s s' : AlgorithmSimulationState),
       s.ramFrames.findIdx? (fun f => !f.isOccupied) = none →
       placeNewPage allOps curIdx pid ptrId size numPages i s = .ok (s', false) →
       (s'.mmu.get? s.mmu.length).map pageStamps =
         some (some (s.metrics.totalSimulationTime + FAULT_TIME),
               some (s.metrics.totalSimulationTime + FAULT_TIME)) ∧
       s'.metrics.totalSimulationTime =
         s.metrics.totalSimulationTime + FAULT_TIME) ∧
    (∀ (allOps : List ProcessInstruction) (curIdx : Nat) (lid : String)
       (pIdx : Nat) (s s' : AlgorithmSimulationState),
       s.mmu.findIdx? (fun p => p.id == lid) = some pIdx →
       (s.mmu.getD pIdx default).isLoadedInRam = false →
       processUsePage allOps curIdx lid s = .ok (s', false) →
       (s'.mmu.get? pIdx).map pageStamps =
         some (some (s.metrics.totalSimulationTime + FAULT_TIME),
               some s.metrics.totalSimulationTime) ∧
       s'.metrics.totalSimulationTime =
         s.metrics.totalSimulationTime + FAULT_TIME) := by
  refine ⟨?_, ?_, ?_⟩
  · -- new, free frame: pre-cost timestamps
    intro allOps curIdx pid ptrId size numPages i s s' b fi hfree hok
    unfold placeNewPage at hok
    simp only [] at hok
    split at hok
    · rename_i freeIdx heq
      rw [hfree] at heq
      cases heq
      cases hok
      refine ⟨?_, ?_, ?_⟩
      · have hlen : s.mmu.length < (s.mmu ++ [(default : LogicalPage)]).length := by
          simp
        dsimp only
        rw [List.get?_set_eq_of_lt _ (by simp)]
        rfl
      · have hfi : fi < s.ramFrames.length :=
          ((List.findIdx?_eq_some_iff_findIdx_eq).1 hfree).1
        dsimp only
        rw [List.get?_set_eq_of_lt _ hfi]
        rfl
      · rfl
    · rename_i heq
      rw [hfree] at heq
      cases heq
  · -- new, replacement: post-cost timestamps
    intro allOps curIdx pid ptrId size numPages i s s' hfree hok
    unfold placeNewPage at hok
    simp only [] at hok
    split at hok
    · rename_i freeIdx heq
      rw [hfree] at heq
      cases heq
    · split at hok
      · cases hok
      · split at hok
        · exact absurd hok (by simp)
        · split at hok
          · exact absurd hok (by simp)
          · cases hok
            constructor
            · rw [ite_applySc_stamps]
              dsimp only
              have hlen :
                  s.mmu.length <
                    (evictVictimPage (consumeRngIfRnd
                      { s with
                        mmu := s.mmu ++ [(default : LogicalPage)] }) default).mmu.length := by
                rw [evictVictimPage_mmu_length, consumeRngIfRnd_mmu]
                simp
              rw [List.get?_set_eq_of_lt _ (by
                rw [evictVictimPage_mmu_length, consumeRngIfRnd_mmu]
                simp)]
              simp only [Option.map_some', pageStamps]
              rw [evictVictimPage_totalSimulationTime, consumeRngIfRnd_metrics]
            · simp only [apply_ite AlgorithmSimulationState.metrics,
                applyScDecision_metrics, ite_self]
              rw [evictVictimPage_totalSimulationTime, consumeRngIfRnd_metrics]
  · -- use, fault path
    intro allOps curIdx lid pIdx s s' hfind hnl hok
    unfold processUsePage at hok
    simp only [] at hok
    split at hok
    · rename_i heq
      rw [hfind] at heq
      cases heq
    · rename_i pIdx2 heq
      rw [hfind] at heq
      cases heq
      split at hok
      · rename_i fIdx heqF
        rw [if_neg (by simpa [List.getD] using hnl)] at heqF
        cases heqF
      · split at hok
        · exact absurd hok (by simp)
        · cases hok
        · rename_i s2 target heqT
          split at hok
          · exact absurd hok (by simp)
          · rename_i frameToLoad heqL
            cases hok
            have hplt : pIdx < s.mmu.length :=
              ((List.findIdx?_eq_some_iff_findIdx_eq).1 hfind).1
            have hlen2 : pIdx < s2.mmu.length := by
              rw [useFaultTarget_mmu_length heqT]
              simpa using hplt
            have hst := useFaultTarget_stamps heqT pIdx
            constructor
            · dsimp only
              rw [List.get?_set_eq_of_lt _ hlen2]
              -- stamps of the page at pIdx before the load
              have hbase :
                  (s2.mmu.get? pIdx).map pageStamps =
                    some ((s.mmu.getD pIdx default).ramLoadTimestamp,
                      some s.metrics.totalSimulationTime) := by
                rw [hst]
                dsimp only
                rw [List.get?_set_eq_of_lt _ hplt]
                rfl
              cases hq : s2.mmu.get? pIdx with
              | none => rw [hq] at hbase; simp at hbase
              | some q =>
                rw [hq] at hbase
                simp only [Option.map_some', Option.some.injEq] at hbase
                have hgd : s2.mmu.getD pIdx default = q := by
                  simp [List.getD, List.get?_eq_getElem?] at hq ⊢
                  simp [hq]
                simp only [Option.map_some', pageStamps, hgd]
                have hq2 : q.ramLastAccessTimestamp =
                    some s.metrics.totalSimulationTime := by
                  have := congrArg Prod.snd hbase
                  simpa [pageStamps] using this
                rw [hq2]
                have ht : s2.metrics.totalSimulationTime =
                    s.metrics.totalSimulationTime + FAULT_TIME := by
                  have := coreMetrics_useFaultTarget heqT
                  unfold coreMetrics at this
                  simp only [Prod.mk.injEq] at this
                  exact this.2.2.1
                rw [ht]
            · have ht : s2.metrics.totalSimulationTime =
                  s.metrics.totalSimulationTime + FAULT_TIME := by
                have := coreMetrics_useFaultTarget heqT
                unfold coreMetrics at this
                simp only [Prod.mk.injEq] at this
                exact this.2.2.1
              exact ht

/-- Initial FIFO state used by the witness of the amended claim C3. -/
def c3sA : AlgorithmSimulationState :=
  getInitialAlgorithmSimulationState AlgorithmName.FIFO (fun _ => 0) 1

set_option maxRecDepth 40000 in
/-- Witness for the amended claim C3, instantiating all three parts on
concrete states of the FIFO session. -/
theorem c3_amended_timestamp_convention_witness :
    (∃ s' b, placeNewPage [] 0 "P1" 1 100 1 0 c3sA = .ok (s', b) ∧
      (s'.mmu.get? c3sA.mmu.length).map pageStamps = some (some 0, some 0)) ∧
    (∃ s1 s', c3Run 1 = .ok s1 ∧
      placeNewPage [c3op1, c3op2] 1 "P1" 2 1 1 0 s1 = .ok (s', false) ∧
      s'.metrics.totalSimulationTime =
        s1.metrics.totalSimulationTime + FAULT_TIME) ∧
    (∃ s2 s', c3Run 2 = .ok s2 ∧
      processUsePage [c3op1, c3op2] 2 "ptr1_page0_pidP1" s2 = .ok (s', false) ∧
      (s'.mmu.get? 0).map pageStamps =
        some (some (s2.metrics.totalSimulationTime + FAULT_TIME),
              some s2.metrics.totalSimulationTime)) := by
  obtain ⟨pA, pB, pC⟩ := c3_amended_timestamp_convention
  refine ⟨?_, ?_, ?_⟩
  · cases hp : placeNewPage [] 0 "P1" 1 100 1 0 c3sA with
    | error e =>
      have hs : (placeNewPage [] 0 "P1" 1 100 1 0 c3sA).toOption.isSome = true := by
        rfl
      rw [hp] at hs
      simp [Except.toOption] at hs
    | ok r =>
      obtain ⟨s', b⟩ := r
      have h := pA [] 0 "P1" 1 100 1 0 c3sA s' b 0 (by rfl) hp
      exact ⟨s', b, rfl, h.1⟩
  · cases hr : c3Run 1 with
    | error e =>
      have hs : (c3Run 1).toOption.isSome = true := by rfl
      rw [hr] at hs
      simp [Except.toOption] at hs
    | ok s1 =>
      have hfree : s1.ramFrames.findIdx? (fun f => !f.isOccupied) = none := by
        have hv : (c3Run 1).toOption.map
            (fun s => s.ramFrames.findIdx? (fun f => !f.isOccupied)) =
            some none := by rfl
        rw [hr] at hv
        simpa [Except.toOption] using hv
      cases hp : placeNewPage [c3op1, c3op2] 1 "P1" 2 1 1 0 s1 with
      | error e =>
        have hv : (c3Run 1).toOption.map
            (fun s => (placeNewPage [c3op1, c3op2] 1 "P1" 2 1 1 0 s).toOption.isSome) =
            some true := by rfl
        rw [hr] at hv
        simp [Except.toOption, hp] at hv
      | ok r =>
        obtain ⟨s', b⟩ := r
        have hb : b = false := by
          have hv : (c3Run 1).toOption.map
              (fun s => match placeNewPage [c3op1, c3op2] 1 "P1" 2 1 1 0 s with
                | .ok (_, bb) => bb
                | .error _ => true) = some false := by rfl
          rw [hr] at hv
          simpa [Except.toOption, hp] using hv
        subst hb
        have h := pB [c3op1, c3op2] 1 "P1" 2 1 1 0 s1 s' hfree hp
        exact ⟨s1, s', rfl, hp, h.2⟩
  · cases hr : c3Run 2 with
    | error e =>
      have hs : (c3Run 2).toOption.isSome = true := by rfl
      rw [hr] at hs
      simp [Except.toOption] at hs
    | ok s2 =>
      have hfind : s2.mmu.findIdx? (fun p => p.id == "ptr1_page0_pidP1") = some 0 := by
        have hv : (c3Run 2).toOption.map
            (fun s => s.mmu.findIdx? (fun p => p.id == "ptr1_page0_pidP1")) =
            some (some 0) := by rfl
        rw [hr] at hv
        simpa [Except.toOption] using hv
      have hnl : (s2.mmu.getD 0 default).isLoadedInRam = false := by
        have hv : (c3Run 2).toOption.map
            (fun s => (s.mmu.getD 0 default).isLoadedInRam) = some false := by rfl
        rw [hr] at hv
        simpa [Except.toOption] using hv
      cases hp : processUsePage [c3op1, c3op2] 2 "ptr1_page0_pidP1" s2 with
      | error e =>
        have hv : (c3Run 2).toOption.map
            (fun s => (processUsePage [c3op1, c3op2] 2 "ptr1_page0_pidP1" s).toOption.isSome) =
            some true := by rfl
        rw [hr] at hv
        simp [Except.toOption, hp] at hv
      | ok r =>
        obtain ⟨s', b⟩ := r
        have hb : b = false := by
          have hv : (c3Run 2).toOption.map
              (fun s => match processUsePage [c3op1, c3op2] 2 "ptr1_page0_pidP1" s with
                | .ok (_, bb) => bb
                | .error _ => true) = some false := by rfl
          rw [hr] at hv
          simpa [Except.toOption, hp] using hv
        subst hb
        have h := pC [c3op1, c3op2] 2 "ptr1_page0_pidP1" 0 s2 s' hfind hnl hp
        exact ⟨s2, s', rfl, hp, h.1⟩

/-! Unknown-pointer instructions are no-ops (claim C9). -/

/-- A state whose derived metrics agree with what step 2 of
processAlgorithmStep would recompute: this holds for the initial state
and for the output of every step. -/
def derivedConsistent (s : AlgorithmSimulationState) : Prop :=
  s.metrics.runningProcessesCount = countDistinctPids s.activePointers ∧
  s.metrics.ramUsedPercentage = ((s.metrics.ramUsedKb : Rat) / (TOTAL_RAM_KB : Rat)) * 100 ∧
  s.metrics.vRamUsedPercentageOfRam =
    (if s.metrics.vRamUsedKb > 0 then
      ((s.metrics.vRamUsedKb : Rat) / (TOTAL_RAM_KB : Rat)) * 100
    else 0) ∧
  s.metrics.internalFragmentationKb = computeFragmentation s.ramFrames s.mmu

instance (s : AlgorithmSimulationState) : Decidable (derivedConsistent s) := by
  unfold derivedConsistent
  infer_instance

lemma recompute_eq_self {s : AlgorithmSimulationState}
    (h : derivedConsistent s) : recomputeCommonMetrics s = s := by
  obtain ⟨h1, h2, h3, h4⟩ := h
  unfold recomputeCommonMetrics
  rw [← h1, ← h2, ← h3, ← h4]

lemma recompute_consistent (t : AlgorithmSimulationState) :
    derivedConsistent (recomputeCommonMetrics t) :=
  ⟨rfl, rfl, rfl, rfl⟩

lemma mapGet_mapDelete_self (m : List (Nat × ActivePointerInfo)) (k : Nat) :
    mapGet (mapDelete m k) k = none := by
  unfold mapGet mapDelete
  induction m with
  | nil => rfl
  | cons x xs ih =>
    by_cases h : x.1 = k
    · simpa [List.filter_cons, h] using ih
    · simpa [List.filter_cons, h] using ih

/-- Claim C9: a `use` or `delete` whose ptrId is not in the
active-pointers table leaves the (derived-metric-consistent) state
entirely unchanged, and delete is idempotent: a second delete of the
same pointer right after a first one is the identity. -/
theorem c9_unknown_ptr_noop (s : AlgorithmSimulationState)
    (h : derivedConsistent s) (ptr : Nat)
    (hun : mapGet s.activePointers ptr = none) (pid : String)
    (allOps : List ProcessInstruction) (i : Nat) :
    processAlgorithmStep s { type := .use, pid := pid, ptrId := some ptr } allOps i =
      .ok s ∧
    processAlgorithmStep s { type := .delete, pid := pid, ptrId := some ptr } allOps i =
      .ok s ∧
    (∀ ptr' s',
      processAlgorithmStep s { type := .delete, pid := pid, ptrId := some ptr' } allOps i =
        .ok s' →
      processAlgorithmStep s' { type := .delete, pid := pid, ptrId := some ptr' } allOps i =
        .ok s') := by
  refine ⟨?_, ?_, ?_⟩
  · unfold processAlgorithmStep handleUse
    simp only [hun, Except.map]
    rw [recompute_eq_self h]
  · unfold processAlgorithmStep handleDelete
    simp only [hun, Except.map]
    rw [recompute_eq_self h]
  · intro ptr' s' hok
    have hc : derivedConsistent s' := by
      unfold processAlgorithmStep at hok
      simp only [] at hok
      cases hd : handleDelete s { type := .delete, pid := pid, ptrId := some ptr' } with
      | error e => rw [hd] at hok; simp [Except.map] at hok
      | ok t =>
        rw [hd] at hok
        simp only [Except.map] at hok
        cases hok
        exact recompute_consistent t
    have hun' : mapGet s'.activePointers ptr' = none := by
      unfold processAlgorithmStep handleDelete at hok
      simp only [] at hok
      split at hok
      · rename_i hnone
        simp only [Except.map] at hok
        cases hok
        exact hnone
      · split at hok
        · exact absurd hok (by simp [Except.map])
        · rename_i s2 heq
          simp only [Except.map] at hok
          cases hok
          exact mapGet_mapDelete_self _ _
    unfold processAlgorithmStep handleDelete
    simp only [hun', Except.map]
    rw [recompute_eq_self hc]

/-- Witness for claim C9 at the initial FIFO state and pointer 7. -/
theorem c9_unknown_ptr_noop_witness :
    derivedConsistent c3sA ∧
    mapGet c3sA.activePointers 7 = none ∧
    processAlgorithmStep c3sA { type := .use, pid := "P1", ptrId := some 7 } [] 0 =
      .ok c3sA := by
  have h : derivedConsistent c3sA := by
    refine ⟨rfl, ?_, ?_, rfl⟩
    · show (0 : Rat) = ((0 : Int) : Rat) / ((TOTAL_RAM_KB : Nat) : Rat) * 100
      norm_num
    · show (0 : Rat) =
        (if (0 : Int) > 0 then ((0 : Int) : Rat) / ((TOTAL_RAM_KB : Nat) : Rat) * 100
         else 0)
      simp
  have hun : mapGet c3sA.activePointers 7 = none := rfl
  exact ⟨h, hun, (c9_unknown_ptr_noop c3sA h 7 hun "P1" [] 0).1⟩

/-! Claim C5: characterisation of the OPT victim. -/

/-- Next-use distance of the page a frame holds (∞ = `none`: no future
use), as OPT computes it for mapped occupied frames. -/
def optFrameDistance (mmu : List LogicalPage) (fo : List ProcessInstruction)
    (ci : Nat) (f : PageFrame) : Option Nat :=
  match getLogicalPageFromFrame f mmu with
  | some pg => instrNextUse fo ci pg.ptrId
  | none => none

/-- Order on next-use distances, `none` being ∞. -/
def distLE : Option Nat → Option Nat → Prop
  | _, none => True
  | none, some _ => False
  | some a, some b => a ≤ b

lemma distLE_refl (a : Option Nat) : distLE a a := by
  cases a <;> simp [distLE]

lemma distLE_trans {a b c : Option Nat} (h1 : distLE a b) (h2 : distLE b c) :
    distLE a c := by
  cases a <;> cases b <;> cases c <;> simp [distLE] at * <;> omega

lemma distLE_antisymm {a b : Option Nat} (h1 : distLE a b) (h2 : distLE b a) :
    a = b := by
  cases a <;> cases b <;> simp [distLE] at * <;> omega

lemma distLE_of_gt {a b : Option Nat} (h : distGtAcc b (some a) = true) :
    distLE a b := by
  cases a <;> cases b <;> simp [distLE, distGtAcc] at * <;> omega

lemma distLE_of_not_gt {a b : Option Nat} (h : distGtAcc a (some b) = false) :
    distLE a b := by
  cases a <;> cases b <;> simp [distLE, distGtAcc] at * <;> omega

lemma dist_ne_of_gt {a b : Option Nat} (h : distGtAcc b (some a) = true) :
    a ≠ b := by
  cases a <;> cases b <;> simp [distGtAcc] at * <;> omega

lemma not_distLE_of_gt {a b : Option Nat} (h : distGtAcc b (some a) = true) :
    ¬ distLE b a := by
  cases a <;> cases b <;> simp [distLE, distGtAcc] at * <;> omega

/-- Argmax invariant of the OPT fold: starting from a chosen frame, the
fold returns the first frame among the remaining ones whose distance
strictly exceeds every earlier maximum. -/
lemma optFold_go (mmu : List LogicalPage) (fo : List ProcessInstruction) (ci : Nat) :
    ∀ (l : List PageFrame) (vf : PageFrame),
      (∀ f ∈ l, (getLogicalPageFromFrame f mmu).isSome = true) →
      (∀ g ∈ l, vf.frameId < g.frameId) →
      l.Pairwise (fun a b => a.frameId < b.frameId) →
      ∃ vf',
        l.foldl (optFoldStep mmu fo ci)
            (some vf, some (optFrameDistance mmu fo ci vf)) =
          (some vf', some (optFrameDistance mmu fo ci vf')) ∧
        (vf' = vf ∨ vf' ∈ l) ∧
        distLE (optFrameDistance mmu fo ci vf) (optFrameDistance mmu fo ci vf') ∧
        (∀ g ∈ l, distLE (optFrameDistance mmu fo ci g)
          (optFrameDistance mmu fo ci vf')) ∧
        (optFrameDistance mmu fo ci vf = optFrameDistance mmu fo ci vf' →
          vf' = vf) ∧
        (∀ g ∈ l, optFrameDistance mmu fo ci g = optFrameDistance mmu fo ci vf' →
          vf'.frameId ≤ g.frameId) := by
  intro l
  induction l with
  | nil =>
    intro vf _ _ _
    exact ⟨vf, rfl, .inl rfl, distLE_refl _, by simp, fun _ => rfl, by simp⟩
  | cons x xs ih =>
    intro vf hmap hlt hpw
    obtain ⟨pg, hpg⟩ : ∃ pg, getLogicalPageFromFrame x mmu = some pg :=
      Option.isSome_iff_exists.1 (hmap x (by simp))
    have hdx : optFrameDistance mmu fo ci x = instrNextUse fo ci pg.ptrId := by
      simp [optFrameDistance, hpg]
    have hstep : ∀ (st : Option PageFrame × Option (Option Nat)),
        optFoldStep mmu fo ci st x =
          (if distGtAcc (instrNextUse fo ci pg.ptrId) st.2 then
            (some x, some (instrNextUse fo ci pg.ptrId)) else st) := by
      intro st
      simp [optFoldStep, hpg]
    simp only [List.foldl_cons, hstep]
    by_cases hgt :
        distGtAcc (instrNextUse fo ci pg.ptrId)
          (some (optFrameDistance mmu fo ci vf)) = true
    · rw [if_pos hgt]
      rw [← hdx]
      have hxs := ih x (fun f hf => hmap f (by simp [hf]))
        (fun g hg => (List.pairwise_cons.1 hpw).1 g hg)
        (List.pairwise_cons.1 hpw).2
      rw [← hdx] at hgt
      obtain ⟨vf', hfold, hmem, hle, hall, htie, hmin⟩ := hxs
      refine ⟨vf', hfold, ?_, ?_, ?_, ?_, ?_⟩
      · rcases hmem with h | h
        · exact .inr (by simp [h])
        · exact .inr (by simp [h])
      · exact distLE_trans (distLE_of_gt hgt) hle
      · intro g hg
        rcases List.mem_cons.1 hg with rfl | hg2
        · exact hle
        · exact hall g hg2
      · intro heq
        rw [← heq] at hle
        exact absurd hle (not_distLE_of_gt hgt)
      · intro g hg heq
        rcases List.mem_cons.1 hg with rfl | hg2
        · rw [htie heq]
        · exact hmin g hg2 heq
    · rw [if_neg (by simpa using hgt)]
      have hng : distLE (instrNextUse fo ci pg.ptrId)
          (optFrameDistance mmu fo ci vf) :=
        distLE_of_not_gt (by simpa using hgt)
      rw [← hdx] at hng
      have hxs := ih vf (fun f hf => hmap f (by simp [hf]))
        (fun g hg => hlt g (by simp [hg]))
        (List.pairwise_cons.1 hpw).2
      obtain ⟨vf', hfold, hmem, hle, hall, htie, hmin⟩ := hxs
      refine ⟨vf', hfold, ?_, hle, ?_, htie, ?_⟩
      · rcases hmem with h | h
        · exact .inl h
        · exact .inr (by simp [h])
      · intro g hg
        rcases List.mem_cons.1 hg with rfl | hg2
        · exact distLE_trans hng hle
        · exact hall g hg2
      · intro g hg heq
        rcases List.mem_cons.1 hg with rfl | hg2
        · have hveq : optFrameDistance mmu fo ci vf =
              optFrameDistance mmu fo ci vf' :=
            distLE_antisymm hle (heq ▸ hng)
          rw [htie hveq]
          exact Nat.le_of_lt (hlt g (by simp))
        · exact hmin g hg2 heq

lemma beq_instructionType_iff (a b : InstructionType) : (a == b) = true ↔ a = b :=
  beq_iff_eq

/-- Claim C5: for a replacement context with at least one occupied frame
(each holding a page of the MMU, frames indexed by id as the engine
builds them), OPT returns an occupied frame whose next-use distance is
maximal, ties broken by the smallest frame id; the distance of a page is
the least offset k with a future `use` instruction (at index
currentOperationIndex + k) of the page's ptrId — `new`, `delete` and
`kill` never count — and pages never used again have distance ∞
(`none`). -/
theorem c5_opt_evicts_farthest_next_use (ctx : PageReplacementContext)
    (fo : List ProcessInstruction) (ci : Nat)
    (hfo : ctx.futureOperations = some fo)
    (hci : ctx.currentOperationIndex = some ci)
    (hocc : ∃ f ∈ ctx.ramFrames, f.isOccupied = true)
    (hmap : ∀ f ∈ ctx.ramFrames, f.isOccupied = true →
      (getLogicalPageFromFrame f ctx.mmu).isSome = true)
    (hids : ∀ (i : Nat) (h : i < ctx.ramFrames.length),
      (ctx.ramFrames.get ⟨i, h⟩).frameId = i) :
    (∀ ptr k, instrNextUse fo ci ptr = some k ↔
      ∃ hk : ci + k < fo.length,
        (fo.get ⟨ci + k, hk⟩).type = .use ∧
        (fo.get ⟨ci + k, hk⟩).ptrId = some ptr ∧
        ∀ j, j < k → ∀ hj : ci + j < fo.length,
          ¬((fo.get ⟨ci + j, hj⟩).type = .use ∧
            (fo.get ⟨ci + j, hj⟩).ptrId = some ptr)) ∧
    (∀ ptr, instrNextUse fo ci ptr = none ↔
      ∀ j, ∀ hj : ci + j < fo.length,
        ¬((fo.get ⟨ci + j, hj⟩).type = .use ∧
          (fo.get ⟨ci + j, hj⟩).ptrId = some ptr)) ∧
    (∃ d vf, optAlgorithm ctx = .ok d ∧
      vf ∈ ctx.ramFrames ∧ vf.isOccupied = true ∧
      d.victimFrameId = vf.frameId ∧ d.victimLogicalPageId = vf.logicalPageId ∧
      (∀ g ∈ ctx.ramFrames, g.isOccupied = true →
        distLE (optFrameDistance ctx.mmu fo ci g)
          (optFrameDistance ctx.mmu fo ci vf)) ∧
      (∀ g ∈ ctx.ramFrames, g.isOccupied = true →
        optFrameDistance ctx.mmu fo ci g = optFrameDistance ctx.mmu fo ci vf →
        vf.frameId ≤ g.frameId)) := by
  refine ⟨?_, ?_, ?_⟩
  · intro ptr k
    unfold instrNextUse
    rw [List.findIdx?_eq_some_iff_getElem]
    constructor
    · rintro ⟨hk, hpred, hless⟩
      have hkl : ci + k < fo.length := by
        have hk' := hk
        rw [List.length_drop] at hk'
        omega
      refine ⟨hkl, ?_, ?_, ?_⟩
      · have := hpred
        rw [List.getElem_drop] at this
        simp only [Bool.and_eq_true, beq_instructionType_iff, beq_iff_eq] at this
        simpa [List.get_eq_getElem] using this.1
      · have := hpred
        rw [List.getElem_drop] at this
        simp only [Bool.and_eq_true, beq_instructionType_iff, beq_iff_eq] at this
        simpa [List.get_eq_getElem] using this.2
      · intro j hjk hj
        have hjd : j < (fo.drop ci).length := by
          rw [List.length_drop]; omega
        have := hless j hjk
        rw [List.getElem_drop] at this
        simp only [Bool.and_eq_true, beq_instructionType_iff, beq_iff_eq,
          not_and] at this
        rintro ⟨h1, h2⟩
        exact (this (by simpa [List.get_eq_getElem] using h1))
          (by simpa [List.get_eq_getElem] using h2)
    · rintro ⟨hkl, h1, h2, hless⟩
      have hk : k < (fo.drop ci).length := by
        rw [List.length_drop]; omega
      refine ⟨hk, ?_, ?_⟩
      · rw [List.getElem_drop]
        simp only [Bool.and_eq_true, beq_instructionType_iff, beq_iff_eq]
        exact ⟨by simpa [List.get_eq_getElem] using h1,
               by simpa [List.get_eq_getElem] using h2⟩
      · intro j hjk
        have hjl : ci + j < fo.length := by
          have := hk
          rw [List.length_drop] at this
          omega
        have := hless j hjk hjl
        rw [List.getElem_drop]
        simp only [Bool.and_eq_true, beq_instructionType_iff, beq_iff_eq, not_and]
        intro ha hb
        exact this ⟨by simpa [List.get_eq_getElem] using ha,
                    by simpa [List.get_eq_getElem] using hb⟩
  · intro ptr
    unfold instrNextUse
    rw [List.findIdx?_eq_none_iff]
    constructor
    · intro hall j hj
      have hjd : j < (fo.drop ci).length := by
        rw [List.length_drop]; omega
      have hmem : fo.get ⟨ci + j, hj⟩ ∈ fo.drop ci := by
        have hget : (fo.drop ci).get ⟨j, hjd⟩ = fo.get ⟨ci + j, hj⟩ := by
          simp [List.get_eq_getElem, List.getElem_drop]
        rw [← hget]
        exact List.get_mem _ _ _
      have hp := hall _ hmem
      rintro ⟨h1, h2⟩
      rw [h1, h2] at hp
      simp at hp
    · intro hnone x hx
      obtain ⟨⟨j, hjd⟩, hxe⟩ := List.mem_iff_get.1 hx
      have hjl : ci + j < fo.length := by
        rw [List.length_drop] at hjd; omega
      have hxg : x = fo.get ⟨ci + j, hjl⟩ := by
        rw [← hxe]
        simp [List.get_eq_getElem, List.getElem_drop]
      subst hxg
      have hno := hnone j hjl
      rw [Bool.eq_false_iff]
      intro hcontra
      simp only [Bool.and_eq_true, beq_instructionType_iff, beq_iff_eq] at hcontra
      exact hno hcontra
  · have hpw : ctx.ramFrames.Pairwise (fun a b => a.frameId < b.frameId) := by
      rw [List.pairwise_iff_get]
      intro i j hij
      rw [hids i.1 i.2, hids j.1 j.2]
      exact hij
    have hpwf : (ctx.ramFrames.filter (·.isOccupied)).Pairwise
        (fun a b => a.frameId < b.frameId) := List.Pairwise.filter _ hpw
    obtain ⟨f1, hf1mem, hf1occ⟩ := hocc
    have hf1 : f1 ∈ ctx.ramFrames.filter (·.isOccupied) :=
      List.mem_filter.2 ⟨hf1mem, by simp [hf1occ]⟩
    cases hof : ctx.ramFrames.filter (·.isOccupied) with
    | nil => rw [hof] at hf1; cases hf1
    | cons f0 rest =>
      have hmapf : ∀ f ∈ f0 :: rest,
          (getLogicalPageFromFrame f ctx.mmu).isSome = true := by
        intro f hf
        rw [← hof] at hf
        have hff := List.mem_filter.1 hf
        exact hmap f hff.1 (by simpa using hff.2)
      obtain ⟨pg0, hpg0⟩ := Option.isSome_iff_exists.1 (hmapf f0 (by simp))
      have hpwr : (f0 :: rest).Pairwise (fun a b => a.frameId < b.frameId) :=
        hof ▸ hpwf
      obtain ⟨vf', hfold, hmem, hle, hall, htie, hmin⟩ :=
        optFold_go ctx.mmu fo ci rest f0
          (fun f hf => hmapf f (by simp [hf]))
          (fun g hg => (List.pairwise_cons.1 hpwr).1 g hg)
          (List.pairwise_cons.1 hpwr).2
      have hvmem : vf' ∈ f0 :: rest := by
        rcases hmem with h | h
        · simp [h]
        · simp [h]
      refine ⟨{ victimFrameId := vf'.frameId,
                victimLogicalPageId := vf'.logicalPageId },
        vf', ?_, ?_, ?_, rfl, rfl, ?_, ?_⟩
      · unfold optAlgorithm
        rw [hfo, hci]
        simp only []
        rw [hof]
        rw [if_neg (by simp)]
        have hstep0 : optFoldStep ctx.mmu fo ci (none, none) f0 =
            (some f0, some (optFrameDistance ctx.mmu fo ci f0)) := by
          simp [optFoldStep, hpg0, distGtAcc, optFrameDistance]
        rw [List.foldl_cons, hstep0, hfold]
      · have hvm := hvmem
        rw [← hof] at hvm
        exact (List.mem_filter.1 hvm).1
      · have hvm := hvmem
        rw [← hof] at hvm
        simpa using (List.mem_filter.1 hvm).2
      · intro g hg hgo2
        have hgf : g ∈ f0 :: rest := by
          rw [← hof]
          exact List.mem_filter.2 ⟨hg, by simp [hgo2]⟩
        rcases List.mem_cons.1 hgf with rfl | hgr
        · exact hle
        · exact hall g hgr
      · intro g hg hgo2 heq
        have hgf : g ∈ f0 :: rest := by
          rw [← hof]
          exact List.mem_filter.2 ⟨hg, by simp [hgo2]⟩
        rcases List.mem_cons.1 hgf with rfl | hgr
        · rw [htie heq]
        · exact hmin g hgr heq

/-- Concrete OPT context for the claim C5 witness: three occupied
frames; ptr 2 is used at future offset 0, ptr 1 at offset 2, ptr 3
never. -/
def c5ctx : PageReplacementContext :=
  { ramFrames :=
      [{ frameId := 0, isOccupied := true, logicalPageId := some "a" },
       { frameId := 1, isOccupied := true, logicalPageId := some "b" },
       { frameId := 2, isOccupied := true, logicalPageId := some "c" }],
    mmu :=
      [{ id := "a", pid := "P1", ptrId := 1, pageIndexInPtr := 0,
         isLoadedInRam := true, contentSizeBytes := 4096 },
       { id := "b", pid := "P1", ptrId := 2, pageIndexInPtr := 0,
         isLoadedInRam := true, contentSizeBytes := 4096 },
       { id := "c", pid := "P1", ptrId := 3, pageIndexInPtr := 0,
         isLoadedInRam := true, contentSizeBytes := 4096 }],
    pageToLoad :=
      { id := "x", pid := "P1", ptrId := 9, pageIndexInPtr := 0,
        isLoadedInRam := false, contentSizeBytes := 100 },
    futureOperations := some
      [{ type := .new, pid := "P1", size := some 100, ptrId := some 9 },
       { type := .use, pid := "P1", ptrId := some 2 },
       { type := .kill, pid := "P1" },
       { type := .use, pid := "P1", ptrId := some 1 }],
    currentOperationIndex := some 1,
    scHandPosition := some 0 }

/-- Witness for claim C5 at the context c5ctx. -/
theorem c5_opt_evicts_farthest_next_use_witness :
    (∃ f ∈ c5ctx.ramFrames, f.isOccupied = true) ∧
    (∃ d vf, optAlgorithm c5ctx = .ok d ∧
      vf ∈ c5ctx.ramFrames ∧ vf.isOccupied = true ∧
      d.victimFrameId = vf.frameId ∧ d.victimLogicalPageId = vf.logicalPageId ∧
      (∀ g ∈ c5ctx.ramFrames, g.isOccupied = true →
        distLE (optFrameDistance c5ctx.mmu
            [{ type := .new, pid := "P1", size := some 100, ptrId := some 9 },
             { type := .use, pid := "P1", ptrId := some 2 },
             { type := .kill, pid := "P1" },
             { type := .use, pid := "P1", ptrId := some 1 }] 1 g)
          (optFrameDistance c5ctx.mmu
            [{ type := .new, pid := "P1", size := some 100, ptrId := some 9 },
             { type := .use, pid := "P1", ptrId := some 2 },
             { type := .kill, pid := "P1" },
             { type := .use, pid := "P1", ptrId := some 1 }] 1 vf)) ∧
      (∀ g ∈ c5ctx.ramFrames, g.isOccupied = true →
        optFrameDistance c5ctx.mmu
            [{ type := .new, pid := "P1", size := some 100, ptrId := some 9 },
             { type := .use, pid := "P1", ptrId := some 2 },
             { type := .kill, pid := "P1" },
             { type := .use, pid := "P1", ptrId := some 1 }] 1 g =
          optFrameDistance c5ctx.mmu
            [{ type := .new, pid := "P1", size := some 100, ptrId := some 9 },
             { type := .use, pid := "P1", ptrId := some 2 },
             { type := .kill, pid := "P1" },
             { type := .use, pid := "P1", ptrId := some 1 }] 1 vf →
        vf.frameId ≤ g.frameId)) := by
  have h := c5_opt_evicts_farthest_next_use c5ctx
    [{ type := .new, pid := "P1", size := some 100, ptrId := some 9 },
     { type := .use, pid := "P1", ptrId := some 2 },
     { type := .kill, pid := "P1" },
     { type := .use, pid := "P1", ptrId := some 1 }] 1
    rfl rfl
    ⟨{ frameId := 0, isOccupied := true, logicalPageId := some "a" },
      by decide, rfl⟩
    (by decide)
    (by decide)
  exact ⟨⟨{ frameId := 0, isOccupied := true, logicalPageId := some "a" },
    by decide, rfl⟩, h.2.2⟩

/-- The logical page held at a RAM position: the frame at that index
joined with the MMU through getLogicalPageFromFrame. -/
def scPageAt (ctx : PageReplacementContext) (pos : Nat) : Option LogicalPage :=
  match ctx.ramFrames.get? pos with
  | none => none
  | some f => getLogicalPageFromFrame f ctx.mmu

/-- Ids of the pages the SC sweep has visited: offsets 0..k-1 from the
hand position h, in sweep order. -/
def scIds (ctx : PageReplacementContext) (h k : Nat) : List String :=
  (List.range k).filterMap (fun j =>
    (scPageAt ctx ((h + j) % ctx.ramFrames.length)).map LogicalPage.id)

/-- Offset from the hand of the first swept page whose reference bit is
0, as the spec describes the SC sweep. -/
def scFirstUnreferenced (ctx : PageReplacementContext) (h : Nat) : Option Nat :=
  (List.range ctx.ramFrames.length).findIdx? (fun j =>
    match scPageAt ctx ((h + j) % ctx.ramFrames.length) with
    | some p => !(p.referencedBit.getD false)
    | none => false)

/-- SC decision exactly as worded by the spec: sweep from the hand,
recording each reference-bit-1 page for clearing, until the first
reference-bit-0 page, which is the victim, with next hand =
(victim position + 1) mod frames; if every page had bit 1 during the
full sweep, the victim is the page originally at the hand position, all
the other swept pages are scheduled for clearing, and the next hand is
(hand + 1) mod frames. -/
def scSpecDecision (ctx : PageReplacementContext) :
    Except String PageReplacementDecision :=
  let N := ctx.ramFrames.length
  let h := ctx.scHandPosition.getD 0
  match scFirstUnreferenced ctx h with
  | some j =>
    match ctx.ramFrames.get? ((h + j) % N) with
    | some victim =>
      .ok { victimFrameId := victim.frameId,
            victimLogicalPageId := victim.logicalPageId,
            nextScHandPosition := some (((h + j) % N + 1) % N),
            pagesWhoseRBitShouldBeCleared := some (scIds ctx h j) }
    | none => .error "[SC] TypeError: marco indefinido"
  | none =>
    match ctx.ramFrames.get? h with
    | some victim =>
      .ok { victimFrameId := victim.frameId,
            victimLogicalPageId := victim.logicalPageId,
            nextScHandPosition := some ((h + 1) % N),
            pagesWhoseRBitShouldBeCleared :=
              some ((List.range (N - 1)).filterMap (fun j =>
                (scPageAt ctx ((h + (j + 1)) % N)).map LogicalPage.id)) }
    | none => .error "[SC] TypeError: marco indefinido"

lemma scPageAt_eq_get (ctx : PageReplacementContext) (pos : Nat)
    (hpos : pos < ctx.ramFrames.length) :
    scPageAt ctx pos =
      getLogicalPageFromFrame (ctx.ramFrames.get ⟨pos, hpos⟩) ctx.mmu := by
  unfold scPageAt
  rw [List.get?_eq_get hpos]

lemma scIds_succ (ctx : PageReplacementContext) (h k : Nat) (p : LogicalPage)
    (hp : scPageAt ctx ((h + k) % ctx.ramFrames.length) = some p) :
    scIds ctx h (k + 1) = scIds ctx h k ++ [p.id] := by
  unfold scIds
  rw [List.range_succ, List.filterMap_append]
  simp [hp]

lemma scIds_length (ctx : PageReplacementContext)
    (hsome : ∀ pos, pos < ctx.ramFrames.length →
      (scPageAt ctx pos).isSome = true)
    (hN : 0 < ctx.ramFrames.length) (h : Nat) :
    ∀ k, (scIds ctx h k).length = k := by
  intro k
  induction k with
  | zero => simp [scIds]
  | succ k ih =>
    have hpos : (h + k) % ctx.ramFrames.length < ctx.ramFrames.length :=
      Nat.mod_lt _ hN
    obtain ⟨p, hp⟩ := Option.isSome_iff_exists.mp (hsome _ hpos)
    rw [scIds_succ ctx h k p hp, List.length_append, ih]
    rfl

lemma occupiedFrameCount_eq (ctx : PageReplacementContext)
    (hocc : ∀ f ∈ ctx.ramFrames, f.isOccupied = true) :
    (ctx.ramFrames.filter (·.isOccupied)).length = ctx.ramFrames.length := by
  rw [List.filter_eq_self.mpr hocc]

lemma sc_pos_ne (N h j : Nat) (hh : h < N) (hj1 : 0 < j) (hj2 : j < N) :
    (h + j) % N ≠ h := by
  intro he
  have hdm := Nat.div_add_mod (h + j) N
  rw [he] at hdm
  rcases Nat.eq_zero_or_pos ((h + j) / N) with h0 | h0
  · rw [h0] at hdm; omega
  · have := Nat.le_mul_of_pos_right N h0
    omega

lemma scPageAt_id (ctx : PageReplacementContext) (pos : Nat)
    (hpos : pos < ctx.ramFrames.length) (p : LogicalPage)
    (hp : scPageAt ctx pos = some p) :
    (ctx.ramFrames.get ⟨pos, hpos⟩).logicalPageId = some p.id := by
  rw [scPageAt_eq_get ctx pos hpos] at hp
  unfold getLogicalPageFromFrame at hp
  cases hl : (ctx.ramFrames.get ⟨pos, hpos⟩).logicalPageId with
  | none => rw [hl] at hp; simp at hp
  | some lid =>
    rw [hl] at hp
    have hp' : (if (ctx.ramFrames.get ⟨pos, hpos⟩).isOccupied && lid != "" then
        ctx.mmu.find? (fun q => q.id == lid) else none) = some p := hp
    split at hp'
    · have hid := List.find?_some hp'
      have hid2 : p.id = lid := by simpa using hid
      rw [hid2]
    · simp at hp'

lemma scStep_occupied (ctx : PageReplacementContext) (numFrames pos : Nat)
    (acc : List String)
    (hpos : pos < ctx.ramFrames.length) (p : LogicalPage)
    (hocc : ∀ f ∈ ctx.ramFrames, f.isOccupied = true)
    (hp : scPageAt ctx pos = some p) :
    scStep ctx numFrames pos acc =
      if p.referencedBit.getD false then
        .inl (acc ++ [p.id], (pos + 1) % numFrames)
      else
        .inr (.ok { victimFrameId := (ctx.ramFrames.get ⟨pos, hpos⟩).frameId,
                    victimLogicalPageId :=
                      (ctx.ramFrames.get ⟨pos, hpos⟩).logicalPageId,
                    nextScHandPosition := some ((pos + 1) % numFrames),
                    pagesWhoseRBitShouldBeCleared := some acc }) := by
  have hoc : (ctx.ramFrames.get ⟨pos, hpos⟩).isOccupied = true :=
    hocc _ (List.get_mem _ _ _)
  rw [scPageAt_eq_get ctx pos hpos] at hp
  unfold scStep
  rw [List.get?_eq_get hpos]
  simp only [hoc, if_true, hp]

lemma scLoop_finds_zero (ctx : PageReplacementContext) (h jstar : Nat)
    (hN : 0 < ctx.ramFrames.length)
    (hocc : ∀ f ∈ ctx.ramFrames, f.isOccupied = true)
    (hsome : ∀ pos, pos < ctx.ramFrames.length →
      (scPageAt ctx pos).isSome = true)
    (hj : jstar < ctx.ramFrames.length)
    (pstar : LogicalPage)
    (hpstar : scPageAt ctx ((h + jstar) % ctx.ramFrames.length) = some pstar)
    (hzero : pstar.referencedBit.getD false = false)
    (hones : ∀ j, j < jstar → ∀ p,
      scPageAt ctx ((h + j) % ctx.ramFrames.length) = some p →
      p.referencedBit.getD false = true) :
    ∀ fuel k, k ≤ jstar → jstar + 1 ≤ fuel + k →
      scLoop ctx ctx.ramFrames.length h fuel
          ((h + k) % ctx.ramFrames.length) (scIds ctx h k) =
        some (.ok
          { victimFrameId :=
              (ctx.ramFrames.get
                ⟨(h + jstar) % ctx.ramFrames.length, Nat.mod_lt _ hN⟩).frameId,
            victimLogicalPageId :=
              (ctx.ramFrames.get
                ⟨(h + jstar) % ctx.ramFrames.length, Nat.mod_lt _ hN⟩).logicalPageId,
            nextScHandPosition :=
              some (((h + jstar) % ctx.ramFrames.length + 1) %
                ctx.ramFrames.length),
            pagesWhoseRBitShouldBeCleared := some (scIds ctx h jstar) }) := by
  intro fuel
  induction fuel with
  | zero => intro k hk hf; omega
  | succ f ih =>
    intro k hk hf
    have hposk : (h + k) % ctx.ramFrames.length < ctx.ramFrames.length :=
      Nat.mod_lt _ hN
    obtain ⟨p, hp⟩ := Option.isSome_iff_exists.mp (hsome _ hposk)
    unfold scLoop
    rw [scStep_occupied ctx ctx.ramFrames.length _ _ hposk p hocc hp]
    by_cases hkj : k = jstar
    · subst hkj
      have hpp : p = pstar := by
        rw [hp] at hpstar; exact Option.some.inj hpstar
      rw [hpp]
      rw [if_neg (by simp [hzero])]
    · have hklt : k < jstar := lt_of_le_of_ne hk hkj
      have hR : p.referencedBit.getD false = true := hones k hklt p hp
      rw [if_pos hR]
      rw [← scIds_succ ctx h k p hp, Nat.mod_add_mod]
      simp only []
      rw [occupiedFrameCount_eq ctx hocc, scIds_length ctx hsome hN h (k + 1)]
      rw [if_neg (by omega)]
      exact ih (k + 1) (by omega) (by omega)

lemma scLoop_fallback (ctx : PageReplacementContext) (h : Nat)
    (hN : 0 < ctx.ramFrames.length)
    (hh : h < ctx.ramFrames.length)
    (hocc : ∀ f ∈ ctx.ramFrames, f.isOccupied = true)
    (hsome : ∀ pos, pos < ctx.ramFrames.length →
      (scPageAt ctx pos).isSome = true)
    (hones : ∀ j, j < ctx.ramFrames.length → ∀ p,
      scPageAt ctx ((h + j) % ctx.ramFrames.length) = some p →
      p.referencedBit.getD false = true) :
    ∀ fuel k, k < ctx.ramFrames.length → ctx.ramFrames.length ≤ fuel + k →
      scLoop ctx ctx.ramFrames.length h fuel
          ((h + k) % ctx.ramFrames.length) (scIds ctx h k) =
        some (.ok
          { victimFrameId := (ctx.ramFrames.get ⟨h, hh⟩).frameId,
            victimLogicalPageId := (ctx.ramFrames.get ⟨h, hh⟩).logicalPageId,
            nextScHandPosition := some ((h + 1) % ctx.ramFrames.length),
            pagesWhoseRBitShouldBeCleared :=
              some ((scIds ctx h ctx.ramFrames.length).filter
                (fun id =>
                  !((ctx.ramFrames.get ⟨h, hh⟩).logicalPageId == some id))) }) := by
  intro fuel
  induction fuel with
  | zero => intro k hk hf; omega
  | succ f ih =>
    intro k hk hf
    have hposk : (h + k) % ctx.ramFrames.length < ctx.ramFrames.length :=
      Nat.mod_lt _ hN
    obtain ⟨p, hp⟩ := Option.isSome_iff_exists.mp (hsome _ hposk)
    have hR : p.referencedBit.getD false = true := hones k hk p hp
    unfold scLoop
    rw [scStep_occupied ctx ctx.ramFrames.length _ _ hposk p hocc hp]
    rw [if_pos hR]
    rw [← scIds_succ ctx h k p hp, Nat.mod_add_mod]
    simp only []
    rw [occupiedFrameCount_eq ctx hocc, scIds_length ctx hsome hN h (k + 1)]
    by_cases hkN : k + 1 = ctx.ramFrames.length
    · rw [if_pos (by omega)]
      rw [List.get?_eq_get hh]
      simp only []
      have hocF : (ctx.ramFrames.get ⟨h, hh⟩).isOccupied = true :=
        hocc _ (List.get_mem _ _ _)
      have hocF' : ctx.ramFrames[h].isOccupied = true := hocF
      rw [if_neg (by simp [hocF'])]
      rw [hkN]
    · rw [if_neg (by omega)]
      exact ih (k + 1) (by omega) (by omega)

lemma scIds_filter_victim (ctx : PageReplacementContext) (h : Nat)
    (hN : 0 < ctx.ramFrames.length) (hh : h < ctx.ramFrames.length)
    (hsome : ∀ pos, pos < ctx.ramFrames.length →
      (scPageAt ctx pos).isSome = true)
    (hdist : ∀ i (hi : i < ctx.ramFrames.length)
      (j : Nat) (hj : j < ctx.ramFrames.length), i ≠ j →
      (ctx.ramFrames.get ⟨i, hi⟩).logicalPageId ≠
        (ctx.ramFrames.get ⟨j, hj⟩).logicalPageId) :
    (scIds ctx h ctx.ramFrames.length).filter
        (fun id => !((ctx.ramFrames.get ⟨h, hh⟩).logicalPageId == some id)) =
      (List.range (ctx.ramFrames.length - 1)).filterMap (fun j =>
        (scPageAt ctx ((h + (j + 1)) % ctx.ramFrames.length)).map
          LogicalPage.id) := by
  obtain ⟨p0, hp0⟩ := Option.isSome_iff_exists.mp (hsome h hh)
  have hvic : (ctx.ramFrames.get ⟨h, hh⟩).logicalPageId = some p0.id :=
    scPageAt_id ctx h hh p0 hp0
  have hhead : scIds ctx h ctx.ramFrames.length =
      p0.id :: (List.range (ctx.ramFrames.length - 1)).filterMap (fun j =>
        (scPageAt ctx ((h + (j + 1)) % ctx.ramFrames.length)).map
          LogicalPage.id) := by
    conv_lhs =>
      rw [show ctx.ramFrames.length = (ctx.ramFrames.length - 1) + 1 by omega]
    unfold scIds
    rw [List.range_succ_eq_map, List.filterMap_cons, List.filterMap_map]
    simp only [Nat.add_zero, Nat.mod_eq_of_lt hh, hp0]
    rfl
  rw [hhead, List.filter_cons]
  have hpred0 :
      (!((ctx.ramFrames.get ⟨h, hh⟩).logicalPageId == some p0.id)) = false := by
    rw [hvic]; simp
  rw [hpred0]
  simp only [Bool.false_eq_true, if_false]
  apply List.filter_eq_self.mpr
  intro a ha
  obtain ⟨j, hjmem, hja⟩ := List.mem_filterMap.mp ha
  have hjlt : j < ctx.ramFrames.length - 1 := List.mem_range.mp hjmem
  cases hpj : scPageAt ctx ((h + (j + 1)) % ctx.ramFrames.length) with
  | none => rw [hpj] at hja; simp at hja
  | some pj =>
    rw [hpj] at hja
    have haid : a = pj.id := by simpa using hja.symm
    have hposj :
        (h + (j + 1)) % ctx.ramFrames.length < ctx.ramFrames.length :=
      Nat.mod_lt _ hN
    have hvj : (ctx.ramFrames.get
        ⟨(h + (j + 1)) % ctx.ramFrames.length, hposj⟩).logicalPageId =
          some pj.id :=
      scPageAt_id ctx _ hposj pj hpj
    have hne : (h + (j + 1)) % ctx.ramFrames.length ≠ h :=
      sc_pos_ne ctx.ramFrames.length h (j + 1) hh (by omega) (by omega)
    have hdne := hdist _ hposj _ hh hne
    rw [hvj, hvic] at hdne
    rw [hvic, haid]
    simp only [Bool.not_eq_true', beq_eq_false_iff_ne]
    exact Ne.symm hdne

/-- **C6.** On a full RAM (every frame occupied by a page present in the
MMU, pages at distinct frames distinct, hand in range), the SC policy is
exactly the spec's sweep: it walks from the hand recording each
reference-bit-1 page for clearing until the first reference-bit-0 page,
which it returns as victim with next hand = (victim position + 1) mod
frames; and when every page has bit 1 during the full sweep, the victim
is the page originally at the hand position, all the other swept pages
are scheduled for clearing, and the next hand is (hand + 1) mod
frames. -/
theorem c6_sc_sweep_matches_spec (ctx : PageReplacementContext) (h : Nat)
    (hh : ctx.scHandPosition = some h)
    (hhlt : h < ctx.ramFrames.length)
    (hocc : ∀ f ∈ ctx.ramFrames, f.isOccupied = true)
    (hmap : ∀ f ∈ ctx.ramFrames,
      (getLogicalPageFromFrame f ctx.mmu).isSome = true)
    (hdist : ∀ i (hi : i < ctx.ramFrames.length)
      (j : Nat) (hj : j < ctx.ramFrames.length), i ≠ j →
      (ctx.ramFrames.get ⟨i, hi⟩).logicalPageId ≠
        (ctx.ramFrames.get ⟨j, hj⟩).logicalPageId) :
    scAlgorithm ctx = scSpecDecision ctx := by
  have hN : 0 < ctx.ramFrames.length :=
    Nat.lt_of_le_of_lt (Nat.zero_le h) hhlt
  have hsome : ∀ pos, pos < ctx.ramFrames.length →
      (scPageAt ctx pos).isSome = true := by
    intro pos hpos
    rw [scPageAt_eq_get ctx pos hpos]
    exact hmap _ (List.get_mem _ _ _)
  unfold scAlgorithm scSpecDecision
  rw [hh]
  simp only [Option.getD_some]
  cases hfz : scFirstUnreferenced ctx h with
  | some jstar =>
    have hchar := hfz
    unfold scFirstUnreferenced at hchar
    rw [List.findIdx?_eq_some_iff_getElem] at hchar
    obtain ⟨hlen, hpred, hprev⟩ := hchar
    rw [List.length_range] at hlen
    simp only [List.getElem_range] at hpred
    obtain ⟨pstar, hpstar⟩ :=
      Option.isSome_iff_exists.mp (hsome _ (Nat.mod_lt (h + jstar) hN))
    simp only [hpstar] at hpred
    have hzero : pstar.referencedBit.getD false = false := by
      simpa using hpred
    have hones : ∀ j, j < jstar → ∀ p,
        scPageAt ctx ((h + j) % ctx.ramFrames.length) = some p →
        p.referencedBit.getD false = true := by
      intro j hjlt p hp
      have hpj := hprev j hjlt
      simp only [List.getElem_range, hp] at hpj
      simpa using hpj
    have hloop := scLoop_finds_zero ctx h jstar hN hocc hsome hlen pstar
      hpstar hzero hones
      (ctx.ramFrames.length * ctx.ramFrames.length + ctx.ramFrames.length + 2)
      0 (Nat.zero_le _) (by omega)
    rw [show (h + 0) % ctx.ramFrames.length = h by
      simp [Nat.mod_eq_of_lt hhlt]] at hloop
    rw [show scIds ctx h 0 = [] by simp [scIds]] at hloop
    rw [hloop]
    simp only []
    rw [List.get?_eq_get (Nat.mod_lt (h + jstar) hN)]
  | none =>
    have hchar := hfz
    unfold scFirstUnreferenced at hchar
    rw [List.findIdx?_eq_none_iff] at hchar
    have hones : ∀ j, j < ctx.ramFrames.length → ∀ p,
        scPageAt ctx ((h + j) % ctx.ramFrames.length) = some p →
        p.referencedBit.getD false = true := by
      intro j hjlt p hp
      have hpj := hchar j (List.mem_range.mpr hjlt)
      simp only [hp] at hpj
      simpa using hpj
    have hloop := scLoop_fallback ctx h hN hhlt hocc hsome hones
      (ctx.ramFrames.length * ctx.ramFrames.length + ctx.ramFrames.length + 2)
      0 hN (by omega)
    rw [show (h + 0) % ctx.ramFrames.length = h by
      simp [Nat.mod_eq_of_lt hhlt]] at hloop
    rw [show scIds ctx h 0 = [] by simp [scIds]] at hloop
    rw [scIds_filter_victim ctx h hN hhlt hsome hdist] at hloop
    rw [hloop]
    simp only []
    rw [List.get?_eq_get hhlt]

/-- Concrete SC context for the claim C6 witness: hand at position 1;
the page at position 1 has reference bit 1, the page at position 2 has
reference bit 0, so the sweep clears "b" and evicts "c". -/
def c6ctx : PageReplacementContext :=
  { ramFrames :=
      [{ frameId := 0, isOccupied := true, logicalPageId := some "a" },
       { frameId := 1, isOccupied := true, logicalPageId := some "b" },
       { frameId := 2, isOccupied := true, logicalPageId := some "c" }],
    mmu :=
      [{ id := "a", pid := "P1", ptrId := 1, pageIndexInPtr := 0,
         isLoadedInRam := true, referencedBit := some true,
         contentSizeBytes := 4096 },
       { id := "b", pid := "P1", ptrId := 2, pageIndexInPtr := 0,
         isLoadedInRam := true, referencedBit := some true,
         contentSizeBytes := 4096 },
       { id := "c", pid := "P1", ptrId := 3, pageIndexInPtr := 0,
         isLoadedInRam := true, referencedBit := none,
         contentSizeBytes := 4096 }],
    pageToLoad :=
      { id := "x", pid := "P1", ptrId := 9, pageIndexInPtr := 0,
        isLoadedInRam := false, contentSizeBytes := 100 },
    scHandPosition := some 1 }

/-- Witness for claim C6 at the context c6ctx. -/
theorem c6_sc_sweep_matches_spec_witness :
    scAlgorithm c6ctx = scSpecDecision c6ctx ∧
    scAlgorithm c6ctx = .ok
      { victimFrameId := 2, victimLogicalPageId := some "c",
        nextScHandPosition := some 0,
        pagesWhoseRBitShouldBeCleared := some ["b"] } := by
  constructor
  · exact c6_sc_sweep_matches_spec c6ctx 1 rfl (by decide) (by decide)
      (by decide) (by decide)
  · rfl

/-- JS regex \w: [A-Za-z0-9_]. -/
def isWordChar (c : Char) : Bool := c.isAlpha || c.isDigit || c == '_'

/-- JS regex \d: [0-9]. -/
def isDigitChar (c : Char) : Bool := c.isDigit

/-- parseInt(s, 10) on a digit-only string. -/
def natFromChars (l : List Char) : Nat :=
  l.foldl (fun a c => a * 10 + (c.toNat - 48)) 0

/-- Case-insensitive literal prefix match (the /i flag of the parser
regexes applied to the fixed leading literal). -/
def stripPrefixCI : List Char → List Char → Option (List Char)
  | [], rest => some rest
  | _ :: _, [] => none
  | p :: ps, c :: cs =>
    if p.toLower == c.toLower then stripPrefixCI ps cs else none

/-- line.match(/^new\((\w+),(\d+)\)$/i): since \w matches neither ','
nor ')' and \d does not match ')', the greedy spans need no
backtracking, so maximal munch is exactly the regex. -/
def matchNew (line : List Char) : Option (List Char × Nat) :=
  match stripPrefixCI "new(".data line with
  | none => none
  | some r1 =>
    let w := r1.takeWhile isWordChar
    match r1.dropWhile isWordChar with
    | ',' :: r2 =>
      if w.isEmpty then none
      else
        let d := r2.takeWhile isDigitChar
        match r2.dropWhile isDigitChar with
        | [')'] => if d.isEmpty then none else some (w, natFromChars d)
        | _ => none
    | _ => none

/-- line.match(/^use\((\d+)\)$/i). -/
def matchUse (line : List Char) : Option Nat :=
  match stripPrefixCI "use(".data line with
  | none => none
  | some r1 =>
    let d := r1.takeWhile isDigitChar
    match r1.dropWhile isDigitChar with
    | [')'] => if d.isEmpty then none else some (natFromChars d)
    | _ => none

/-- line.match(/^delete\((\d+)\)$/i). -/
def matchDelete (line : List Char) : Option Nat :=
  match stripPrefixCI "delete(".data line with
  | none => none
  | some r1 =>
    let d := r1.takeWhile isDigitChar
    match r1.dropWhile isDigitChar with
    | [')'] => if d.isEmpty then none else some (natFromChars d)
    | _ => none

/-- line.match(/^kill\((\w+)\)$/i). -/
def matchKill (line : List Char) : Option (List Char) :=
  match stripPrefixCI "kill(".data line with
  | none => none
  | some r1 =>
    let w := r1.takeWhile isWordChar
    match r1.dropWhile isWordChar with
    | [')'] => if w.isEmpty then none else some w
    | _ => none

/-- csvContent.split(/\r?\n/): a lone carriage return not followed by a
newline stays inside its line. -/
def splitLines : List Char → List (List Char)
  | [] => [[]]
  | c :: cs =>
    if c = '\n' then [] :: splitLines cs
    else if c = '\r' ∧ cs.head? = some '\n' then [] :: splitLines cs.tail
    else
      match splitLines cs with
      | [] => [[c]]
      | l :: ls => (c :: l) :: ls
termination_by l => l.length
decreasing_by all_goals simp [List.length_tail] <;> omega

/-- array.join('\n'). -/
def joinLines : List (List Char) → List Char
  | [] => []
  | [l] => l
  | l :: ls => l ++ '\n' :: joinLines ls

/-- line.trim(). -/
def jsTrim (l : List Char) : List Char :=
  ((l.dropWhile Char.isWhitespace).reverse.dropWhile Char.isWhitespace).reverse

/-- JS template interpolation of a possibly-undefined number. -/
def jsNumOpt : Option Nat → List Char
  | some n => natChars (n + 1) n
  | none => "undefined".data

/-- One line of operationsToCsv (SetupScreen.tsx): new(pid,size),
use(ptrId), delete(ptrId), kill(pid); the ptrId of a new is not
serialized. -/
def operationLine (op : ProcessInstruction) : List Char :=
  match op.type with
  | .new => "new(".data ++ op.pid.data ++ ',' :: jsNumOpt op.size ++ [')']
  | .use => "use(".data ++ jsNumOpt op.ptrId ++ [')']
  | .delete => "delete(".data ++ jsNumOpt op.ptrId ++ [')']
  | .kill => "kill(".data ++ op.pid.data ++ [')']

/-- operationsToCsv (SetupScreen.tsx). -/
def operationsToCsv (ops : List ProcessInstruction) : List Char :=
  joinLines (ops.map operationLine)

/-- Lookup in the ptrIdToPidMap Map. -/
def ptrMapGet (m : List (Nat × String)) (k : Nat) : Option String :=
  (m.find? (fun e => e.1 == k)).map (·.2)

/-- Map.set on ptrIdToPidMap. -/
def ptrMapSet (m : List (Nat × String)) (k : Nat) (v : String) :
    List (Nat × String) :=
  if (m.find? (fun e => e.1 == k)).isSome then
    m.map (fun e => if e.1 == k then (k, v) else e)
  else m ++ [(k, v)]

/-- The lines.forEach body of parseCsvToOperations: trim, try the four
matchers in order, reassign sequential ptrIds to new lines, look the
owner pid of a use/delete up in the map (|| '' when absent), and skip
unrecognized lines. -/
def parseLoop : List (List Char) → Nat → List (Nat × String) →
    List ProcessInstruction × Nat
  | [], cnt, _ => ([], cnt)
  | line :: rest, cnt, pmap =>
    let l := jsTrim line
    match matchNew l with
    | some (w, sz) =>
      let r := parseLoop rest (cnt + 1) (ptrMapSet pmap cnt ⟨w⟩)
      ({ type := .new, pid := ⟨w⟩, size := some sz, ptrId := some cnt } ::
        r.1, r.2)
    | none =>
      match matchUse l with
      | some p =>
        let r := parseLoop rest cnt pmap
        ({ type := .use, pid := (ptrMapGet pmap p).getD "",
           ptrId := some p } :: r.1, r.2)
      | none =>
        match matchDelete l with
        | some p =>
          let r := parseLoop rest cnt pmap
          ({ type := .delete, pid := (ptrMapGet pmap p).getD "",
             ptrId := some p } :: r.1, r.2)
        | none =>
          match matchKill l with
          | some w =>
            let r := parseLoop rest cnt pmap
            ({ type := .kill, pid := ⟨w⟩ } :: r.1, r.2)
          | none => parseLoop rest cnt pmap

/-- parseCsvToOperations (SetupScreen.tsx): split on /\r?\n/, drop
blank lines, scan with ptrId counter 1 and an empty ptrIdToPidMap. -/
def parseCsvToOperations (csv : List Char) :
    List ProcessInstruction × Nat :=
  parseLoop ((splitLines csv).filter (fun l => !(jsTrim l).isEmpty)) 1 []

/-- Per-process generator state (SetupScreen.tsx, processStates). -/
structure ProcState where
  activePtrIds : List Nat := []
  isKilled : Bool := false
deriving DecidableEq, Repr, Inhabited

/-- processStates[pid] = v for an existing key (the source mutates the
record entry in place). -/
def setPState (states : List (String × ProcState)) (pid : String)
    (v : ProcState) : List (String × ProcState) :=
  states.map (fun e => if e.1 == pid then (pid, v) else e)

/-- JS array[i]: undefined on a negative or out-of-range index. -/
def jsListGet {α : Type} (l : List α) (i : Int) : Option α :=
  if i < 0 then none else l.get? i.toNat

/-- arr.splice(i, 1): the removed element (undefined when out of
range); a negative index counts from the end. -/
def jsSpliceGet (l : List Nat) (i : Int) : Option Nat :=
  let j := (if i < 0 then max ((l.length : Int) + i) 0 else i).toNat
  l.get? j

/-- arr.splice(i, 1): the remaining array. -/
def jsSpliceRemove (l : List Nat) (i : Int) : List Nat :=
  let j := (if i < 0 then max ((l.length : Int) + i) 0 else i).toNat
  l.take j ++ l.drop (j + 1)

/-- The opType selection of one generator iteration (SetupScreen.tsx):
the 0.4/0.7/0.9 roll thresholds (use/delete only when a pointer is
active), the kill branch with its extra draw and its not-too-early
check, and the final use/delete-to-new correction. -/
def genOpType (numOps opCount availLen activeLen : Nat) (roll r3 : Rat) :
    InstructionType :=
  let dec : InstructionType :=
    if roll < 0.4 then .new
    else if 0 < activeLen ∧ roll < 0.7 then .use
    else if 0 < activeLen ∧ roll < 0.9 then .delete
    else if r3 < 0.7 ∧ (opCount : Int) < (numOps : Int) - (availLen : Int)
    then .new
    else .kill
  if (dec = .use ∨ dec = .delete) ∧ ¬(0 < activeLen) then .new else dec

/-- Index of the next unconsumed rng draw after the opType selection:
the final else branch of the selection consumes one extra draw. -/
def genRngIdx (n activeLen : Nat) (roll : Rat) : Nat :=
  if roll < 0.4 ∨ (0 < activeLen ∧ roll < 0.7) ∨
      (0 < activeLen ∧ roll < 0.9)
  then n + 2 else n + 3

/-- The main for loop of generateOperations (SetupScreen.tsx), with the
rng closure as an abstract stream indexed by draw count and explicit
fuel (the retry branches decrement the loop counter, so the loop is not
syntactically bounded; `none` marks executions that exceed the fuel).
Since the P1..Pn keys are distinct, filtering the available pids is
done on the entries directly. -/
def genLoop (numOps : Nat) (rng : Nat → Rat) :
    Nat → Nat → Nat → List (String × ProcState) → Nat →
    List ProcessInstruction →
    Option (Except String (List ProcessInstruction × List (String × ProcState)))
  | 0, _, _, _, _, _ => none
  | fuel + 1, opCount, n, states, nextPtr, ops =>
    if numOps ≤ opCount then some (.ok (ops, states))
    else
      let avail := states.filter (fun e => !e.2.isKilled)
      if avail.length = 0 then some (.ok (ops, states))
      else
        match jsListGet avail (rng n * (avail.length : Rat)).floor with
        | none => some (.error "TypeError: pid indefinido")
        | some entry =>
          let pid := entry.1
          let state := entry.2
          let roll := rng (n + 1)
          let opType : InstructionType :=
            genOpType numOps opCount avail.length state.activePtrIds.length
              roll (rng (n + 2))
          let m := genRngIdx n state.activePtrIds.length roll
          if opType = .kill ∧ state.isKilled then
            genLoop numOps rng fuel (opCount + 1) m states nextPtr ops
          else
            match opType with
            | .new =>
              let size := (rng m * (16 * 1024 - 100) + 100).floor.toNat
              genLoop numOps rng fuel (opCount + 1) (m + 1)
                (setPState states pid
                  ⟨state.activePtrIds ++ [nextPtr], state.isKilled⟩)
                (nextPtr + 1)
                (ops ++ [{ type := .new, pid := pid, size := some size,
                           ptrId := some nextPtr }])
            | .use =>
              if 0 < state.activePtrIds.length then
                genLoop numOps rng fuel (opCount + 1) (m + 1) states nextPtr
                  (ops ++ [{ type := .use, pid := pid,
                             ptrId := jsListGet state.activePtrIds
                               (rng m * (state.activePtrIds.length : Rat)).floor }])
              else genLoop numOps rng fuel opCount m states nextPtr ops
            | .delete =>
              if 0 < state.activePtrIds.length then
                genLoop numOps rng fuel (opCount + 1) (m + 1)
                  (setPState states pid
                    ⟨jsSpliceRemove state.activePtrIds
                      (rng m * (state.activePtrIds.length : Rat)).floor,
                     state.isKilled⟩)
                  nextPtr
                  (ops ++ [{ type := .delete, pid := pid,
                             ptrId := jsSpliceGet state.activePtrIds
                               (rng m * (state.activePtrIds.length : Rat)).floor }])
              else genLoop numOps rng fuel opCount m states nextPtr ops
            | .kill =>
              genLoop numOps rng fuel (opCount + 1) m
                (setPState states pid ⟨[], true⟩) nextPtr
                (ops ++ [{ type := .kill, pid := pid }])

/-- generateOperations (SetupScreen.tsx): the fueled main loop from
fresh state, then a final kill for every process still alive, truncated
to numOps operations; one iteration per produced operation plus the
final check makes numOps + 1 fuel enough for every terminating JS
execution. -/
def generateOperations (numProcesses numOps : Nat) (rng : Nat → Rat) :
    Option (Except String (List ProcessInstruction)) :=
  let states0 := (List.range numProcesses).map
    (fun i => ("P" ++ natToString (i + 1), (⟨[], false⟩ : ProcState)))
  match genLoop numOps rng (numOps + 1) 0 0 states0 1 [] with
  | none => none
  | some (.error e) => some (.error e)
  | some (.ok (ops, states)) =>
    some (.ok ((ops ++ (states.filter
        (fun (e : String × ProcState) => !e.2.isKilled)).map
      (fun (e : String × ProcState) =>
        ({ type := .kill, pid := e.1 } : ProcessInstruction))).take numOps))

/-- A pid the parser can read back: nonempty and all \w characters. -/
def wordLike (s : String) : Bool :=
  !s.data.isEmpty && s.data.all isWordChar

/-- One step of the parser-state simulation that characterizes the
lists whose serialization parses back exactly: news carry the next
sequential ptrId with a size and a word pid, uses and deletes refer to
a pointer the map resolves to their own pid, kills carry a word pid. -/
def wfStep (st : Nat × List (Nat × String)) (op : ProcessInstruction) :
    Option (Nat × List (Nat × String)) :=
  match op.type with
  | .new =>
    match op.size, op.ptrId with
    | some _, some p =>
      if p == st.1 && wordLike op.pid then
        some (st.1 + 1, ptrMapSet st.2 st.1 op.pid)
      else none
    | _, _ => none
  | .use =>
    match op.ptrId, op.size with
    | some p, none =>
      if ptrMapGet st.2 p == some op.pid then some st else none
    | _, _ => none
  | .delete =>
    match op.ptrId, op.size with
    | some p, none =>
      if ptrMapGet st.2 p == some op.pid then some st else none
    | _, _ => none
  | .kill =>
    match op.ptrId, op.size with
    | none, none => if wordLike op.pid then some st else none
    | _, _ => none

/-- Iterated wfStep. -/
def wfCheck : Nat × List (Nat × String) → List ProcessInstruction →
    Option (Nat × List (Nat × String))
  | st, [] => some st
  | st, op :: rest =>
    match wfStep st op with
    | none => none
    | some st' => wfCheck st' rest

/-- Link between the generator state and the parser-state simulation:
every tracked process has a word pid, and each of its active pointers
is below the next fresh ptrId and owned by it in the map. -/
def GenInv (states : List (String × ProcState)) (nextPtr : Nat)
    (pmap : List (Nat × String)) : Prop :=
  ∀ e ∈ states, wordLike e.1 = true ∧
    ∀ ptr ∈ e.2.activePtrIds,
      ptrMapGet pmap ptr = some e.1 ∧ ptr < nextPtr

lemma digitChar_props : ∀ d, d < 10 →
    isDigitChar (digitChar d) = true ∧ (digitChar d).toNat - 48 = d := by
  decide

lemma natFromChars_append (l : List Char) (c : Char) :
    natFromChars (l ++ [c]) = natFromChars l * 10 + (c.toNat - 48) := by
  unfold natFromChars
  rw [List.foldl_append]
  rfl

lemma natChars_spec : ∀ fuel n, 0 < fuel → n < 10 ^ fuel →
    natFromChars (natChars fuel n) = n ∧ natChars fuel n ≠ [] ∧
    ∀ c ∈ natChars fuel n, isDigitChar c = true := by
  intro fuel
  induction fuel with
  | zero => intro n h; omega
  | succ f ih =>
    intro n _ hn
    rw [natChars]
    by_cases h10 : n < 10
    · rw [if_pos h10]
      obtain ⟨hd, hv⟩ := digitChar_props n h10
      refine ⟨?_, by simp, ?_⟩
      · show natFromChars ([] ++ [digitChar n]) = n
        rw [natFromChars_append, hv]
        simp [natFromChars]
      · intro c hc
        simp only [List.mem_singleton] at hc
        subst hc
        exact hd
    · rw [if_neg h10]
      have hf : 0 < f := by
        rcases Nat.eq_zero_or_pos f with h0 | h0
        · subst h0; simp at hn; omega
        · exact h0
      have hdiv : n / 10 < 10 ^ f := by
        rw [Nat.div_lt_iff_lt_mul (by norm_num)]
        calc n < 10 ^ (f + 1) := hn
          _ = 10 ^ f * 10 := by rw [pow_succ]
      obtain ⟨ih1, ih2, ih3⟩ := ih (n / 10) hf hdiv
      have hmod : n % 10 < 10 := Nat.mod_lt _ (by norm_num)
      obtain ⟨hd, hv⟩ := digitChar_props (n % 10) hmod
      refine ⟨?_, by simp, ?_⟩
      · rw [natFromChars_append, ih1, hv]
        omega
      · intro c hc
        rcases List.mem_append.mp hc with h | h
        · exact ih3 c h
        · simp only [List.mem_singleton] at h
          subst h
          exact hd

lemma ws_cases (c : Char) (h : c.isWhitespace = true) :
    c = ' ' ∨ c = '\t' ∨ c = '\r' ∨ c = '\n' := by
  unfold Char.isWhitespace at h
  simp at h
  tauto

lemma digitChar_not_special (c : Char) (h : isDigitChar c = true) :
    c.isWhitespace = false ∧ c ≠ '\n' ∧ c ≠ '\r' := by
  refine ⟨?_, ?_, ?_⟩
  · cases hb : c.isWhitespace with
    | false => rfl
    | true =>
      rcases ws_cases c hb with h' | h' | h' | h' <;>
        (subst h'; exact absurd h (by decide))
  · intro h'; subst h'; exact absurd h (by decide)
  · intro h'; subst h'; exact absurd h (by decide)

lemma wordChar_not_special (c : Char) (h : isWordChar c = true) :
    c.isWhitespace = false ∧ c ≠ '\n' ∧ c ≠ '\r' := by
  refine ⟨?_, ?_, ?_⟩
  · cases hb : c.isWhitespace with
    | false => rfl
    | true =>
      rcases ws_cases c hb with h' | h' | h' | h' <;>
        (subst h'; exact absurd h (by decide))
  · intro h'; subst h'; exact absurd h (by decide)
  · intro h'; subst h'; exact absurd h (by decide)

lemma dropWhile_eq_self_of_all {p : Char → Bool} {l : List Char}
    (h : ∀ c ∈ l, p c = false) : l.dropWhile p = l := by
  cases l with
  | nil => rfl
  | cons a as =>
    rw [List.dropWhile_cons, h a (by simp)]
    simp

lemma jsTrim_id (l : List Char) (h : ∀ c ∈ l, c.isWhitespace = false) :
    jsTrim l = l := by
  unfold jsTrim
  rw [dropWhile_eq_self_of_all h,
      dropWhile_eq_self_of_all (fun c hc => h c (List.mem_reverse.mp hc)),
      List.reverse_reverse]

lemma span_append_cons (p : Char → Bool) (w : List Char) (c : Char)
    (rest : List Char) (hw : ∀ x ∈ w, p x = true) (hc : p c = false) :
    (w ++ c :: rest).takeWhile p = w ∧
    (w ++ c :: rest).dropWhile p = c :: rest := by
  induction w with
  | nil => constructor <;> simp [List.takeWhile_cons, List.dropWhile_cons, hc]
  | cons a as ih =>
    have ha : p a = true := hw a (by simp)
    obtain ⟨h1, h2⟩ := ih (fun x hx => hw x (by simp [hx]))
    constructor
    · simp only [List.cons_append, List.takeWhile_cons, ha, if_true, h1]
    · simp only [List.cons_append, List.dropWhile_cons, ha, if_true, h2]

lemma stripPrefixCI_append : ∀ pre rest : List Char,
    stripPrefixCI pre (pre ++ rest) = some rest := by
  intro pre
  induction pre with
  | nil => intro rest; rfl
  | cons a ps ih =>
    intro rest
    simp [stripPrefixCI, ih rest]

lemma stripPrefixCI_ne (p c : Char) (ps l : List Char)
    (h : (p.toLower == c.toLower) = false) :
    stripPrefixCI (p :: ps) (c :: l) = none := by
  simp [stripPrefixCI, h]

lemma matchNew_cons_ne (c : Char) (l : List Char)
    (h : ('n'.toLower == c.toLower) = false) :
    matchNew (c :: l) = none := by
  unfold matchNew
  rw [show ("new(".data : List Char) = 'n' :: "ew(".data from rfl,
      stripPrefixCI_ne _ _ _ _ h]

lemma matchUse_cons_ne (c : Char) (l : List Char)
    (h : ('u'.toLower == c.toLower) = false) :
    matchUse (c :: l) = none := by
  unfold matchUse
  rw [show ("use(".data : List Char) = 'u' :: "se(".data from rfl,
      stripPrefixCI_ne _ _ _ _ h]

lemma matchDelete_cons_ne (c : Char) (l : List Char)
    (h : ('d'.toLower == c.toLower) = false) :
    matchDelete (c :: l) = none := by
  unfold matchDelete
  rw [show ("delete(".data : List Char) = 'd' :: "elete(".data from rfl,
      stripPrefixCI_ne _ _ _ _ h]

lemma matchNew_line (pid : List Char) (d : List Char)
    (hpid1 : pid ≠ []) (hpid2 : ∀ c ∈ pid, isWordChar c = true)
    (hd2 : ∀ c ∈ d, isDigitChar c = true) (hd1 : d ≠ []) :
    matchNew ("new(".data ++ pid ++ ',' :: d ++ [')']) =
      some (pid, natFromChars d) := by
  unfold matchNew
  rw [show "new(".data ++ pid ++ ',' :: d ++ [')'] =
      "new(".data ++ (pid ++ (',' :: (d ++ [')']))) by simp]
  rw [stripPrefixCI_append]
  simp only []
  obtain ⟨ht, hdr⟩ := span_append_cons isWordChar pid ',' (d ++ [')'])
    hpid2 (by decide)
  rw [ht, hdr]
  simp only []
  have hpe : pid.isEmpty = false := by
    cases pid with
    | nil => exact absurd rfl hpid1
    | cons a as => rfl
  rw [hpe]
  simp only [Bool.false_eq_true, if_false]
  obtain ⟨ht2, hdr2⟩ := span_append_cons isDigitChar d ')' [] hd2 (by decide)
  rw [ht2, hdr2]
  simp only []
  have hde : d.isEmpty = false := by
    cases d with
    | nil => exact absurd rfl hd1
    | cons a as => rfl
  rw [hde]
  simp

lemma matchUse_line (d : List Char)
    (hd2 : ∀ c ∈ d, isDigitChar c = true) (hd1 : d ≠ []) :
    matchUse ("use(".data ++ d ++ [')']) = some (natFromChars d) := by
  unfold matchUse
  rw [show "use(".data ++ d ++ [')'] =
      "use(".data ++ (d ++ [')']) by simp]
  rw [stripPrefixCI_append]
  simp only []
  obtain ⟨ht, hdr⟩ := span_append_cons isDigitChar d ')' [] hd2 (by decide)
  rw [ht, hdr]
  simp only []
  have hde : d.isEmpty = false := by
    cases d with
    | nil => exact absurd rfl hd1
    | cons a as => rfl
  rw [hde]
  simp

lemma matchDelete_line (d : List Char)
    (hd2 : ∀ c ∈ d, isDigitChar c = true) (hd1 : d ≠ []) :
    matchDelete ("delete(".data ++ d ++ [')']) = some (natFromChars d) := by
  unfold matchDelete
  rw [show "delete(".data ++ d ++ [')'] =
      "delete(".data ++ (d ++ [')']) by simp]
  rw [stripPrefixCI_append]
  simp only []
  obtain ⟨ht, hdr⟩ := span_append_cons isDigitChar d ')' [] hd2 (by decide)
  rw [ht, hdr]
  simp only []
  have hde : d.isEmpty = false := by
    cases d with
    | nil => exact absurd rfl hd1
    | cons a as => rfl
  rw [hde]
  simp

lemma matchKill_line (pid : List Char)
    (hpid1 : pid ≠ []) (hpid2 : ∀ c ∈ pid, isWordChar c = true) :
    matchKill ("kill(".data ++ pid ++ [')']) = some pid := by
  unfold matchKill
  rw [show "kill(".data ++ pid ++ [')'] =
      "kill(".data ++ (pid ++ [')']) by simp]
  rw [stripPrefixCI_append]
  simp only []
  obtain ⟨ht, hdr⟩ := span_append_cons isWordChar pid ')' [] hpid2 (by decide)
  rw [ht, hdr]
  simp only []
  have hpe : pid.isEmpty = false := by
    cases pid with
    | nil => exact absurd rfl hpid1
    | cons a as => rfl
  rw [hpe]
  simp

lemma splitLines_no_sep (l : List Char)
    (h : ∀ c ∈ l, c ≠ '\n' ∧ c ≠ '\r') : splitLines l = [l] := by
  induction l with
  | nil => rw [splitLines]
  | cons c cs ih =>
    obtain ⟨hn, hr⟩ := h c (by simp)
    rw [splitLines, if_neg hn, if_neg (fun hc => hr hc.1),
        ih (fun x hx => h x (by simp [hx]))]

lemma splitLines_append (l rest : List Char)
    (h : ∀ c ∈ l, c ≠ '\n' ∧ c ≠ '\r') :
    splitLines (l ++ '\n' :: rest) = l :: splitLines rest := by
  induction l with
  | nil =>
    show splitLines ('\n' :: rest) = [] :: splitLines rest
    rw [splitLines, if_pos rfl]
  | cons c cs ih =>
    obtain ⟨hn, hr⟩ := h c (by simp)
    show splitLines (c :: (cs ++ '\n' :: rest)) = (c :: cs) :: splitLines rest
    rw [splitLines, if_neg hn, if_neg (fun hc => hr hc.1),
        ih (fun x hx => h x (by simp [hx]))]

lemma splitLines_join (ls : List (List Char)) (hne : ls ≠ [])
    (h : ∀ l ∈ ls, ∀ c ∈ l, c ≠ '\n' ∧ c ≠ '\r') :
    splitLines (joinLines ls) = ls := by
  induction ls with
  | nil => exact absurd rfl hne
  | cons l rest ih =>
    cases rest with
    | nil =>
      show splitLines (joinLines [l]) = [l]
      rw [show joinLines [l] = l from rfl]
      exact splitLines_no_sep l (h l (by simp))
    | cons l2 rest2 =>
      rw [show joinLines (l :: l2 :: rest2) =
          l ++ '\n' :: joinLines (l2 :: rest2) from rfl]
      rw [splitLines_append l _ (h l (by simp))]
      rw [ih (by simp) (fun l' hl' => h l' (by simp [hl']))]

lemma wordLike_iff (s : String) : wordLike s = true ↔
    s.data ≠ [] ∧ ∀ c ∈ s.data, isWordChar c = true := by
  unfold wordLike
  rw [Bool.and_eq_true, List.all_eq_true]
  simp [List.isEmpty_iff]

lemma wfStep_new_inv (st st' : Nat × List (Nat × String))
    (op : ProcessInstruction)
    (hty : op.type = .new) (h : wfStep st op = some st') :
    ∃ sz, op.size = some sz ∧ op.ptrId = some st.1 ∧
      wordLike op.pid = true ∧
      st' = (st.1 + 1, ptrMapSet st.2 st.1 op.pid) := by
  unfold wfStep at h
  rw [hty] at h
  cases hsz : op.size with
  | none => simp [hsz] at h
  | some sz =>
    cases hptr : op.ptrId with
    | none => simp [hsz, hptr] at h
    | some p =>
      simp only [hsz, hptr] at h
      split at h
      · rename_i hcond
        rw [Bool.and_eq_true] at hcond
        obtain ⟨hp, hw⟩ := hcond
        have hp' : p = st.1 := by simpa using hp
        subst hp'
        exact ⟨sz, rfl, rfl, hw, (Option.some.inj h).symm⟩
      · simp at h

lemma wfStep_use_inv (st st' : Nat × List (Nat × String))
    (op : ProcessInstruction)
    (hty : op.type = .use) (h : wfStep st op = some st') :
    ∃ p, op.ptrId = some p ∧ op.size = none ∧
      ptrMapGet st.2 p = some op.pid ∧ st' = st := by
  unfold wfStep at h
  rw [hty] at h
  cases hptr : op.ptrId with
  | none => simp [hptr] at h
  | some p =>
    cases hsz : op.size with
    | some sz => simp [hptr, hsz] at h
    | none =>
      simp only [hptr, hsz] at h
      split at h
      · rename_i hcond
        have hg : ptrMapGet st.2 p = some op.pid := by simpa using hcond
        exact ⟨p, rfl, rfl, hg, (Option.some.inj h).symm⟩
      · simp at h

lemma wfStep_delete_inv (st st' : Nat × List (Nat × String))
    (op : ProcessInstruction)
    (hty : op.type = .delete) (h : wfStep st op = some st') :
    ∃ p, op.ptrId = some p ∧ op.size = none ∧
      ptrMapGet st.2 p = some op.pid ∧ st' = st := by
  unfold wfStep at h
  rw [hty] at h
  cases hptr : op.ptrId with
  | none => simp [hptr] at h
  | some p =>
    cases hsz : op.size with
    | some sz => simp [hptr, hsz] at h
    | none =>
      simp only [hptr, hsz] at h
      split at h
      · rename_i hcond
        have hg : ptrMapGet st.2 p = some op.pid := by simpa using hcond
        exact ⟨p, rfl, rfl, hg, (Option.some.inj h).symm⟩
      · simp at h

lemma wfStep_kill_inv (st st' : Nat × List (Nat × String))
    (op : ProcessInstruction)
    (hty : op.type = .kill) (h : wfStep st op = some st') :
    op.ptrId = none ∧ op.size = none ∧ wordLike op.pid = true ∧
      st' = st := by
  unfold wfStep at h
  rw [hty] at h
  cases hptr : op.ptrId with
  | some p => simp [hptr] at h
  | none =>
    cases hsz : op.size with
    | some sz => simp [hptr, hsz] at h
    | none =>
      simp only [hptr, hsz] at h
      split at h
      · rename_i hw
        exact ⟨rfl, rfl, hw, (Option.some.inj h).symm⟩
      · simp at h

lemma good_of_word (c : Char) (h : isWordChar c = true) :
    c ≠ '\n' ∧ c ≠ '\r' ∧ c.isWhitespace = false := by
  obtain ⟨h1, h2, h3⟩ := wordChar_not_special c h
  exact ⟨h2, h3, h1⟩

lemma good_of_digit (c : Char) (h : isDigitChar c = true) :
    c ≠ '\n' ∧ c ≠ '\r' ∧ c.isWhitespace = false := by
  obtain ⟨h1, h2, h3⟩ := digitChar_not_special c h
  exact ⟨h2, h3, h1⟩

lemma lt_ten_pow (n : Nat) : n < 10 ^ (n + 1) :=
  Nat.lt_of_lt_of_le (Nat.lt_pow_self (by norm_num) n)
    (Nat.pow_le_pow_right (by norm_num) (Nat.le_succ n))

lemma natChars_digits (n : Nat) : natChars (n + 1) n ≠ [] ∧
    ∀ c ∈ natChars (n + 1) n, isDigitChar c = true := by
  obtain ⟨_, h2, h3⟩ := natChars_spec (n + 1) n (Nat.succ_pos n) (lt_ten_pow n)
  exact ⟨h2, h3⟩

lemma natChars_val (n : Nat) :
    natFromChars (natChars (n + 1) n) = n :=
  (natChars_spec (n + 1) n (Nat.succ_pos n) (lt_ten_pow n)).1

lemma operationLine_good (op : ProcessInstruction)
    (st st' : Nat × List (Nat × String)) (h : wfStep st op = some st') :
    operationLine op ≠ [] ∧
    ∀ c ∈ operationLine op, c ≠ '\n' ∧ c ≠ '\r' ∧ c.isWhitespace = false := by
  cases hty : op.type with
  | new =>
    obtain ⟨sz, hsz, hptr, hw, _⟩ := wfStep_new_inv st st' op hty h
    obtain ⟨hwne, hwall⟩ := (wordLike_iff op.pid).mp hw
    have hline : operationLine op =
        'n' :: 'e' :: 'w' :: '(' ::
          (op.pid.data ++ ',' :: (natChars (sz + 1) sz ++ [')'])) := by
      simp [operationLine, hty, hsz, jsNumOpt]
    rw [hline]
    refine ⟨by simp, ?_⟩
    intro c hc
    simp only [List.mem_cons, List.mem_append, List.mem_singleton] at hc
    rcases hc with h' | h' | h' | h' | h' | h' | h' | h'
    · subst h'; decide
    · subst h'; decide
    · subst h'; decide
    · subst h'; decide
    · exact good_of_word c (hwall c h')
    · subst h'; decide
    · exact good_of_digit c ((natChars_digits sz).2 c h')
    · rcases h' with h' | h'
      · subst h'; decide
      · simp at h'
  | use =>
    obtain ⟨p, hptr, hszn, _, _⟩ := wfStep_use_inv st st' op hty h
    have hline : operationLine op =
        'u' :: 's' :: 'e' :: '(' :: (natChars (p + 1) p ++ [')']) := by
      simp [operationLine, hty, hptr, jsNumOpt]
    rw [hline]
    refine ⟨by simp, ?_⟩
    intro c hc
    simp only [List.mem_cons, List.mem_append, List.mem_singleton] at hc
    rcases hc with h' | h' | h' | h' | h' | h'
    · subst h'; decide
    · subst h'; decide
    · subst h'; decide
    · subst h'; decide
    · exact good_of_digit c ((natChars_digits p).2 c h')
    · rcases h' with h' | h'
      · subst h'; decide
      · simp at h'
  | delete =>
    obtain ⟨p, hptr, hszn, _, _⟩ := wfStep_delete_inv st st' op hty h
    have hline : operationLine op =
        'd' :: 'e' :: 'l' :: 'e' :: 't' :: 'e' :: '(' ::
          (natChars (p + 1) p ++ [')']) := by
      simp [operationLine, hty, hptr, jsNumOpt]
    rw [hline]
    refine ⟨by simp, ?_⟩
    intro c hc
    simp only [List.mem_cons, List.mem_append, List.mem_singleton] at hc
    rcases hc with h' | h' | h' | h' | h' | h' | h' | h' | h'
    · subst h'; decide
    · subst h'; decide
    · subst h'; decide
    · subst h'; decide
    · subst h'; decide
    · subst h'; decide
    · subst h'; decide
    · exact good_of_digit c ((natChars_digits p).2 c h')
    · rcases h' with h' | h'
      · subst h'; decide
      · simp at h'
  | kill =>
    obtain ⟨hptr, hszn, hw, _⟩ := wfStep_kill_inv st st' op hty h
    obtain ⟨hwne, hwall⟩ := (wordLike_iff op.pid).mp hw
    have hline : operationLine op =
        'k' :: 'i' :: 'l' :: 'l' :: '(' :: (op.pid.data ++ [')']) := by
      simp [operationLine, hty]
    rw [hline]
    refine ⟨by simp, ?_⟩
    intro c hc
    simp only [List.mem_cons, List.mem_append, List.mem_singleton] at hc
    rcases hc with h' | h' | h' | h' | h' | h' | h'
    · subst h'; decide
    · subst h'; decide
    · subst h'; decide
    · subst h'; decide
    · subst h'; decide
    · exact good_of_word c (hwall c h')
    · rcases h' with h' | h'
      · subst h'; decide
      · simp at h'

lemma wfCheck_append (l1 l2 : List ProcessInstruction) :
    ∀ st, wfCheck st (l1 ++ l2) =
      match wfCheck st l1 with
      | none => none
      | some st1 => wfCheck st1 l2 := by
  induction l1 with
  | nil => intro st; rfl
  | cons op l1 ih =>
    intro st
    show wfCheck st (op :: (l1 ++ l2)) = _
    cases hs : wfStep st op with
    | none => simp [wfCheck, hs]
    | some st1 => simp [wfCheck, hs, ih st1]

lemma wfCheck_take (l : List ProcessInstruction) :
    ∀ st st' k, wfCheck st l = some st' →
      ∃ st2, wfCheck st (l.take k) = some st2 := by
  induction l with
  | nil =>
    intro st st' k h
    exact ⟨st, by simp [wfCheck]⟩
  | cons op rest ih =>
    intro st st' k h
    cases k with
    | zero => exact ⟨st, rfl⟩
    | succ k =>
      cases hs : wfStep st op with
      | none => simp only [wfCheck, hs] at h; exact absurd h (by simp)
      | some st1 =>
        simp only [wfCheck, hs] at h
        obtain ⟨st2, h2⟩ := ih st1 st' k h
        exact ⟨st2, by simp only [List.take_succ_cons, wfCheck, hs]; exact h2⟩

lemma wfCheck_all (l : List ProcessInstruction) :
    ∀ st st', wfCheck st l = some st' →
      ∀ op ∈ l, ∃ s1 s2, wfStep s1 op = some s2 := by
  induction l with
  | nil => intro st st' _ op hop; simp at hop
  | cons op0 rest ih =>
    intro st st' h op hop
    cases hs : wfStep st op0 with
    | none => simp only [wfCheck, hs] at h; exact absurd h (by simp)
    | some st1 =>
      simp only [wfCheck, hs] at h
      rcases List.mem_cons.mp hop with h' | h'
      · subst h'; exact ⟨st, st1, hs⟩
      · exact ih st1 st' h op h'

lemma parseLoop_serialize (ops : List ProcessInstruction) :
    ∀ st st', wfCheck st ops = some st' →
      parseLoop (ops.map operationLine) st.1 st.2 = (ops, st'.1) := by
  induction ops with
  | nil =>
    intro st st' h
    have hst : st = st' := Option.some.inj h
    subst hst
    rfl
  | cons op rest ih =>
    intro st st' h
    cases hs : wfStep st op with
    | none => simp only [wfCheck, hs] at h; exact absurd h (by simp)
    | some st1 =>
      simp only [wfCheck, hs] at h
      have hgood := operationLine_good op st st1 hs
      have htrim : jsTrim (operationLine op) = operationLine op :=
        jsTrim_id _ (fun c hc => (hgood.2 c hc).2.2)
      show parseLoop (operationLine op :: rest.map operationLine) st.1 st.2 = _
      cases hty : op.type with
      | new =>
        obtain ⟨sz, hsz, hptr, hw, hst1⟩ := wfStep_new_inv st st1 op hty hs
        obtain ⟨hwne, hwall⟩ := (wordLike_iff op.pid).mp hw
        subst hst1
        simp only [parseLoop, htrim]
        rw [show operationLine op =
            "new(".data ++ op.pid.data ++ ',' :: natChars (sz + 1) sz ++ [')'] from by
          simp [operationLine, hty, hsz, jsNumOpt]]
        rw [matchNew_line op.pid.data (natChars (sz + 1) sz) hwne hwall
          (natChars_digits sz).2 (natChars_digits sz).1]
        simp only []
        rw [natChars_val sz]
        have hihr := ih (st.1 + 1, ptrMapSet st.2 st.1 op.pid) st' h
        dsimp only at hihr
        rw [hihr]
        have hop : ProcessInstruction.mk InstructionType.new
            (⟨op.pid.data⟩ : String) (some sz) (some st.1) = op := by
          cases op with
          | mk t pd s2 p2 =>
            have h1 : t = InstructionType.new := hty
            have h2 : s2 = some sz := hsz
            have h3 : p2 = some st.1 := hptr
            rw [h1, h2, h3]
        rw [hop]
      | use =>
        obtain ⟨p, hptr, hszn, hmg, hst1⟩ := wfStep_use_inv st st1 op hty hs
        rw [hst1] at h
        simp only [parseLoop, htrim]
        rw [show operationLine op =
            "use(".data ++ natChars (p + 1) p ++ [')'] from by
          simp [operationLine, hty, hptr, jsNumOpt]]
        rw [show ("use(".data ++ natChars (p + 1) p ++ [')'] : List Char) =
            'u' :: ("se(".data ++ natChars (p + 1) p ++ [')']) from by simp]
        rw [matchNew_cons_ne 'u' ("se(".data ++ natChars (p + 1) p ++ [')'])
          (by decide)]
        simp only []
        rw [show 'u' :: ("se(".data ++ natChars (p + 1) p ++ [')']) =
            "use(".data ++ natChars (p + 1) p ++ [')'] from by simp]
        rw [matchUse_line (natChars (p + 1) p)
          (natChars_digits p).2 (natChars_digits p).1]
        simp only []
        rw [natChars_val p, hmg]
        simp only [Option.getD_some]
        have hihr := ih st st' h
        rw [hihr]
        have hop : ProcessInstruction.mk InstructionType.use
            op.pid none (some p) = op := by
          cases op with
          | mk t pd s2 p2 =>
            have h1 : t = InstructionType.use := hty
            have h2 : s2 = none := hszn
            have h3 : p2 = some p := hptr
            rw [h1, h2, h3]
        rw [hop]
      | delete =>
        obtain ⟨p, hptr, hszn, hmg, hst1⟩ := wfStep_delete_inv st st1 op hty hs
        rw [hst1] at h
        simp only [parseLoop, htrim]
        rw [show operationLine op =
            "delete(".data ++ natChars (p + 1) p ++ [')'] from by
          simp [operationLine, hty, hptr, jsNumOpt]]
        rw [show ("delete(".data ++ natChars (p + 1) p ++ [')'] : List Char) =
            'd' :: ("elete(".data ++ natChars (p + 1) p ++ [')']) from by simp]
        rw [matchNew_cons_ne 'd' ("elete(".data ++ natChars (p + 1) p ++ [')'])
          (by decide)]
        simp only []
        rw [matchUse_cons_ne 'd' ("elete(".data ++ natChars (p + 1) p ++ [')'])
          (by decide)]
        simp only []
        rw [show 'd' :: ("elete(".data ++ natChars (p + 1) p ++ [')']) =
            "delete(".data ++ natChars (p + 1) p ++ [')'] from by simp]
        rw [matchDelete_line (natChars (p + 1) p)
          (natChars_digits p).2 (natChars_digits p).1]
        simp only []
        rw [natChars_val p, hmg]
        simp only [Option.getD_some]
        have hihr := ih st st' h
        rw [hihr]
        have hop : ProcessInstruction.mk InstructionType.delete
            op.pid none (some p) = op := by
          cases op with
          | mk t pd s2 p2 =>
            have h1 : t = InstructionType.delete := hty
            have h2 : s2 = none := hszn
            have h3 : p2 = some p := hptr
            rw [h1, h2, h3]
        rw [hop]
      | kill =>
        obtain ⟨hptr, hszn, hw, hst1⟩ := wfStep_kill_inv st st1 op hty hs
        obtain ⟨hwne, hwall⟩ := (wordLike_iff op.pid).mp hw
        rw [hst1] at h
        simp only [parseLoop, htrim]
        rw [show operationLine op =
            "kill(".data ++ op.pid.data ++ [')'] from by
          simp [operationLine, hty]]
        rw [show ("kill(".data ++ op.pid.data ++ [')'] : List Char) =
            'k' :: ("ill(".data ++ op.pid.data ++ [')']) from by simp]
        rw [matchNew_cons_ne 'k' ("ill(".data ++ op.pid.data ++ [')'])
          (by decide)]
        simp only []
        rw [matchUse_cons_ne 'k' ("ill(".data ++ op.pid.data ++ [')'])
          (by decide)]
        simp only []
        rw [matchDelete_cons_ne 'k' ("ill(".data ++ op.pid.data ++ [')'])
          (by decide)]
        simp only []
        rw [show 'k' :: ("ill(".data ++ op.pid.data ++ [')']) =
            "kill(".data ++ op.pid.data ++ [')'] from by simp]
        rw [matchKill_line op.pid.data hwne hwall]
        simp only []
        have hihr := ih st st' h
        rw [hihr]
        have hop : ProcessInstruction.mk InstructionType.kill
            (⟨op.pid.data⟩ : String) none none = op := by
          cases op with
          | mk t pd s2 p2 =>
            have h1 : t = InstructionType.kill := hty
            have h2 : s2 = none := hszn
            have h3 : p2 = none := hptr
            rw [h1, h2, h3]
        rw [hop]

lemma wf_roundtrip (ops : List ProcessInstruction)
    (st' : Nat × List (Nat × String))
    (h : wfCheck (1, []) ops = some st') :
    parseCsvToOperations (operationsToCsv ops) = (ops, st'.1) := by
  cases ops with
  | nil =>
    have hst : (1, ([] : List (Nat × String))) = st' := Option.some.inj h
    subst hst
    show parseCsvToOperations [] = ([], 1)
    unfold parseCsvToOperations
    rw [splitLines]
    rfl
  | cons op rest =>
    unfold parseCsvToOperations operationsToCsv
    have hgoodall : ∀ l ∈ (op :: rest).map operationLine,
        ∀ c ∈ l, c ≠ '\n' ∧ c ≠ '\r' := by
      intro l hl c hc
      obtain ⟨o, ho, hlo⟩ := List.mem_map.mp hl
      obtain ⟨s1, s2, hstep⟩ := wfCheck_all _ _ _ h o ho
      subst hlo
      obtain ⟨g1, g2, _⟩ := (operationLine_good o s1 s2 hstep).2 c hc
      exact ⟨g1, g2⟩
    rw [splitLines_join _ (by simp) hgoodall]
    have hfil : ((op :: rest).map operationLine).filter
        (fun l => !(jsTrim l).isEmpty) = (op :: rest).map operationLine := by
      apply List.filter_eq_self.mpr
      intro l hl
      obtain ⟨o, ho, hlo⟩ := List.mem_map.mp hl
      obtain ⟨s1, s2, hstep⟩ := wfCheck_all _ _ _ h o ho
      subst hlo
      obtain ⟨hne, hgood⟩ := operationLine_good o s1 s2 hstep
      rw [jsTrim_id _ (fun c hc => (hgood c hc).2.2)]
      cases hol : operationLine o with
      | nil => exact absurd hol hne
      | cons a as => rfl
    rw [hfil]
    exact parseLoop_serialize _ (1, []) st' h

lemma ptrMapGet_set_self (m : List (Nat × String)) (k : Nat) (v : String) :
    ptrMapGet (ptrMapSet m k v) k = some v := by
  unfold ptrMapSet
  split
  · rename_i hfind
    unfold ptrMapGet
    induction m with
    | nil => simp at hfind
    | cons e m ih =>
      cases he : (e.1 == k) with
      | true =>
        rw [List.map_cons, if_pos he,
            List.find?_cons_of_pos _ (by simp)]
        rfl
      | false =>
        rw [List.find?_cons_of_neg _ (by simp [he])] at hfind
        rw [List.map_cons, if_neg (by simp [he]),
            List.find?_cons_of_neg _ (by simp [he])]
        exact ih hfind
  · unfold ptrMapGet
    rename_i hfind
    rw [List.find?_append]
    have hnone : m.find? (fun e => e.1 == k) = none := by
      cases hf : m.find? (fun e => e.1 == k) with
      | none => rfl
      | some e => rw [hf] at hfind; simp at hfind
    rw [hnone, List.find?_cons_of_pos _ (by simp)]
    rfl

lemma find?_p_map_set (m : List (Nat × String)) (k p : Nat) (v : String)
    (hpk : p ≠ k) :
    List.find? (fun e => e.1 == p)
        (m.map (fun e => if e.1 == k then (k, v) else e)) =
      List.find? (fun e => e.1 == p) m := by
  induction m with
  | nil => rfl
  | cons e m ih =>
    cases he : (e.1 == k) with
    | true =>
      have he' : e.1 = k := by simpa using he
      rw [List.map_cons, if_pos he,
          List.find?_cons_of_neg _ (by simp [Ne.symm hpk]),
          List.find?_cons_of_neg _ (by simp [he', Ne.symm hpk]), ih]
    | false =>
      rw [List.map_cons, if_neg (by simp [he])]
      cases hep : (e.1 == p) with
      | true =>
        rw [@List.find?_cons_of_pos (Nat × String) (fun x => x.1 == p) e
              (List.map (fun x => if x.1 == k then (k, v) else x) m) hep,
            @List.find?_cons_of_pos (Nat × String) (fun x => x.1 == p) e m hep]
      | false =>
        rw [List.find?_cons_of_neg _ (by simp [hep]),
            List.find?_cons_of_neg _ (by simp [hep]), ih]

lemma ptrMapGet_set_other (m : List (Nat × String)) (k p : Nat) (v : String)
    (hpk : p ≠ k) :
    ptrMapGet (ptrMapSet m k v) p = ptrMapGet m p := by
  unfold ptrMapSet
  split
  · unfold ptrMapGet
    rw [find?_p_map_set m k p v hpk]
  · unfold ptrMapGet
    rw [List.find?_append]
    have hlast : List.find? (fun e => e.1 == p) [(k, v)] = none := by
      simp [Ne.symm hpk]
    rw [hlast]
    cases hf : m.find? (fun e => e.1 == p) <;> rfl

lemma rng_floor_range (r : Rat) (len : Nat) (h0 : 0 ≤ r) (h1 : r < 1)
    (hlen : 0 < len) :
    0 ≤ (r * (len : Rat)).floor ∧ (r * (len : Rat)).floor < (len : Int) := by
  have hprod0 : (0 : Rat) ≤ r * (len : Rat) :=
    mul_nonneg h0 (by exact_mod_cast Nat.zero_le len)
  have hprodlt : r * (len : Rat) < (len : Rat) := by
    calc r * (len : Rat) < 1 * (len : Rat) :=
          mul_lt_mul_of_pos_right h1 (by exact_mod_cast hlen)
      _ = (len : Rat) := one_mul _
  constructor
  · exact Rat.le_floor.mpr (by exact_mod_cast hprod0)
  · by_contra hc
    push_neg at hc
    have hle := Rat.le_floor.mp hc
    have : (len : Rat) ≤ r * (len : Rat) := by exact_mod_cast hle
    linarith

lemma jsListGet_mem {α : Type} (l : List α) (i : Int) (x : α)
    (h : jsListGet l i = some x) : x ∈ l := by
  unfold jsListGet at h
  split at h
  · simp at h
  · exact List.get?_mem h

lemma jsListGet_rng {α : Type} (l : List α) (r : Rat)
    (h0 : 0 ≤ r) (h1 : r < 1) (hlen : 0 < l.length) :
    ∃ x, jsListGet l (r * (l.length : Rat)).floor = some x ∧ x ∈ l := by
  obtain ⟨hge, hlt⟩ := rng_floor_range r l.length h0 h1 hlen
  unfold jsListGet
  rw [if_neg (by omega)]
  have hidx : (r * (l.length : Rat)).floor.toNat < l.length :=
    (Int.toNat_lt hge).mpr hlt
  exact ⟨l.get ⟨_, hidx⟩, List.get?_eq_get hidx, List.get_mem _ _ _⟩

lemma jsSpliceGet_rng (l : List Nat) (r : Rat)
    (h0 : 0 ≤ r) (h1 : r < 1) (hlen : 0 < l.length) :
    ∃ x, jsSpliceGet l (r * (l.length : Rat)).floor = some x ∧ x ∈ l := by
  obtain ⟨hge, hlt⟩ := rng_floor_range r l.length h0 h1 hlen
  unfold jsSpliceGet
  rw [if_neg (by omega)]
  have hidx : (r * (l.length : Rat)).floor.toNat < l.length :=
    (Int.toNat_lt hge).mpr hlt
  exact ⟨l.get ⟨_, hidx⟩, List.get?_eq_get hidx, List.get_mem _ _ _⟩

lemma wfCheck_snoc (ops : List ProcessInstruction)
    (op : ProcessInstruction) (st1 st2 : Nat × List (Nat × String))
    (h1 : wfCheck (1, []) ops = some st1) (h2 : wfStep st1 op = some st2) :
    wfCheck (1, []) (ops ++ [op]) = some st2 := by
  rw [wfCheck_append, h1]
  simp [wfCheck, h2]

lemma wfStep_new_eval (st : Nat × List (Nat × String)) (pid : String)
    (sz : Nat) (hw : wordLike pid = true) :
    wfStep st ⟨.new, pid, some sz, some st.1⟩ =
      some (st.1 + 1, ptrMapSet st.2 st.1 pid) := by
  simp [wfStep, hw]

lemma wfStep_useOp_eval (st : Nat × List (Nat × String)) (pid : String)
    (ptr : Nat) (hg : ptrMapGet st.2 ptr = some pid) :
    wfStep st ⟨.use, pid, none, some ptr⟩ = some st := by
  simp [wfStep, hg]

lemma wfStep_deleteOp_eval (st : Nat × List (Nat × String)) (pid : String)
    (ptr : Nat) (hg : ptrMapGet st.2 ptr = some pid) :
    wfStep st ⟨.delete, pid, none, some ptr⟩ = some st := by
  simp [wfStep, hg]

lemma wfStep_killOp_eval (st : Nat × List (Nat × String)) (pid : String)
    (hw : wordLike pid = true) :
    wfStep st ⟨.kill, pid, none, none⟩ = some st := by
  simp [wfStep, hw]

lemma GenInv_setPState_new (states : List (String × ProcState))
    (nextPtr : Nat) (pmap : List (Nat × String)) (entry : String × ProcState)
    (hmem : entry ∈ states) (hinv : GenInv states nextPtr pmap) :
    GenInv (setPState states entry.1
        ⟨entry.2.activePtrIds ++ [nextPtr], entry.2.isKilled⟩)
      (nextPtr + 1) (ptrMapSet pmap nextPtr entry.1) := by
  intro e' he'
  obtain ⟨e, he, heq⟩ := List.mem_map.mp he'
  by_cases hc : (e.1 == entry.1) = true
  · rw [if_pos hc] at heq
    subst heq
    refine ⟨(hinv entry hmem).1, ?_⟩
    intro ptr hptr
    rcases List.mem_append.mp hptr with h' | h'
    · obtain ⟨hg, hlt⟩ := (hinv entry hmem).2 ptr h'
      exact ⟨by rw [ptrMapGet_set_other _ _ _ _ (by omega), hg], by omega⟩
    · simp only [List.mem_singleton] at h'
      subst h'
      exact ⟨ptrMapGet_set_self _ _ _, by omega⟩
  · rw [if_neg hc] at heq
    subst heq
    refine ⟨(hinv e he).1, ?_⟩
    intro ptr hptr
    obtain ⟨hg, hlt⟩ := (hinv e he).2 ptr hptr
    exact ⟨by rw [ptrMapGet_set_other _ _ _ _ (by omega), hg], by omega⟩

lemma GenInv_setPState_delete (states : List (String × ProcState))
    (nextPtr : Nat) (pmap : List (Nat × String)) (entry : String × ProcState)
    (i : Int) (hmem : entry ∈ states) (hinv : GenInv states nextPtr pmap) :
    GenInv (setPState states entry.1
        ⟨jsSpliceRemove entry.2.activePtrIds i, entry.2.isKilled⟩)
      nextPtr pmap := by
  intro e' he'
  obtain ⟨e, he, heq⟩ := List.mem_map.mp he'
  by_cases hc : (e.1 == entry.1) = true
  · rw [if_pos hc] at heq
    subst heq
    refine ⟨(hinv entry hmem).1, ?_⟩
    intro ptr hptr
    have hmem2 : ptr ∈ entry.2.activePtrIds := by
      unfold jsSpliceRemove at hptr
      rcases List.mem_append.mp hptr with h' | h'
      · exact List.mem_of_mem_take h'
      · exact List.mem_of_mem_drop h'
    exact (hinv entry hmem).2 ptr hmem2
  · rw [if_neg hc] at heq
    subst heq
    exact hinv e he

lemma GenInv_setPState_kill (states : List (String × ProcState))
    (nextPtr : Nat) (pmap : List (Nat × String)) (entry : String × ProcState)
    (hmem : entry ∈ states) (hinv : GenInv states nextPtr pmap) :
    GenInv (setPState states entry.1 ⟨[], true⟩) nextPtr pmap := by
  intro e' he'
  obtain ⟨e, he, heq⟩ := List.mem_map.mp he'
  by_cases hc : (e.1 == entry.1) = true
  · rw [if_pos hc] at heq
    subst heq
    refine ⟨(hinv entry hmem).1, ?_⟩
    intro ptr hptr
    simp at hptr
  · rw [if_neg hc] at heq
    subst heq
    exact hinv e he

lemma genLoop_wf (numOps : Nat) (rng : Nat → Rat)
    (hrng : ∀ i, 0 ≤ rng i ∧ rng i < 1) :
    ∀ fuel opCount n states nextPtr ops pmap ops' states',
      wfCheck (1, []) ops = some (nextPtr, pmap) →
      GenInv states nextPtr pmap →
      genLoop numOps rng fuel opCount n states nextPtr ops =
        some (.ok (ops', states')) →
      ∃ nextPtr' pmap', wfCheck (1, []) ops' = some (nextPtr', pmap') ∧
        GenInv states' nextPtr' pmap' := by
  intro fuel
  induction fuel with
  | zero =>
    intro opCount n states nextPtr ops pmap ops' states' hwf hinv hloop
    rw [genLoop] at hloop
    exact absurd hloop (by simp)
  | succ f ih =>
    intro opCount n states nextPtr ops pmap ops' states' hwf hinv hloop
    rw [genLoop] at hloop
    split at hloop
    · have h12 := Except.ok.inj (Option.some.inj hloop)
      have h1 : ops = ops' := congrArg Prod.fst h12
      have h2 : states = states' := congrArg Prod.snd h12
      subst h1; subst h2
      exact ⟨nextPtr, pmap, hwf, hinv⟩
    · simp only [] at hloop
      split at hloop
      · have h12 := Except.ok.inj (Option.some.inj hloop)
        have h1 : ops = ops' := congrArg Prod.fst h12
        have h2 : states = states' := congrArg Prod.snd h12
        subst h1; subst h2
        exact ⟨nextPtr, pmap, hwf, hinv⟩
      · split at hloop
        · simp at hloop
        · rename_i entry hentry
          have hmem : entry ∈ states :=
            (List.mem_filter.mp (jsListGet_mem _ _ _ hentry)).1
          have hwpid : wordLike entry.1 = true := (hinv entry hmem).1
          split at hloop
          · exact ih _ _ _ _ _ _ _ _ hwf hinv hloop
          · split at hloop
            · -- new
              refine ih _ _ _ _ _ (ptrMapSet pmap nextPtr entry.1) _ _ ?_ ?_ hloop
              · exact wfCheck_snoc ops _ (nextPtr, pmap) _ hwf
                  (wfStep_new_eval (nextPtr, pmap) entry.1 _ hwpid)
              · exact GenInv_setPState_new states nextPtr pmap entry hmem hinv
            · -- use
              split at hloop
              · rename_i hpos
                obtain ⟨ptr, hget, hpmem⟩ := jsListGet_rng
                  entry.2.activePtrIds _ (hrng _).1 (hrng _).2 hpos
                rw [hget] at hloop
                obtain ⟨hg, _⟩ := (hinv entry hmem).2 ptr hpmem
                refine ih _ _ _ _ _ pmap _ _ ?_ hinv hloop
                exact wfCheck_snoc ops _ (nextPtr, pmap) _ hwf
                  (wfStep_useOp_eval (nextPtr, pmap) entry.1 ptr hg)
              · exact ih _ _ _ _ _ _ _ _ hwf hinv hloop
            · -- delete
              split at hloop
              · rename_i hpos
                obtain ⟨ptr, hget, hpmem⟩ := jsSpliceGet_rng
                  entry.2.activePtrIds _ (hrng _).1 (hrng _).2 hpos
                rw [hget] at hloop
                obtain ⟨hg, _⟩ := (hinv entry hmem).2 ptr hpmem
                refine ih _ _ _ _ _ pmap _ _ ?_ ?_ hloop
                · exact wfCheck_snoc ops _ (nextPtr, pmap) _ hwf
                    (wfStep_deleteOp_eval (nextPtr, pmap) entry.1 ptr hg)
                · exact GenInv_setPState_delete states nextPtr pmap
                    entry _ hmem hinv
              · exact ih _ _ _ _ _ _ _ _ hwf hinv hloop
            · -- kill
              refine ih _ _ _ _ _ pmap _ _ ?_ ?_ hloop
              · exact wfCheck_snoc ops _ (nextPtr, pmap) _ hwf
                  (wfStep_killOp_eval (nextPtr, pmap) entry.1 hwpid)
              · exact GenInv_setPState_kill states nextPtr pmap entry hmem hinv

lemma word_of_digit (c : Char) (h : isDigitChar c = true) :
    isWordChar c = true := by
  unfold isWordChar
  unfold isDigitChar at h
  simp [h]

lemma pid_wordLike (i : Nat) :
    wordLike ("P" ++ natToString (i + 1)) = true := by
  apply (wordLike_iff _).mpr
  rw [show ("P" ++ natToString (i + 1)).data =
      'P' :: natChars (i + 1 + 1) (i + 1) from rfl]
  constructor
  · simp
  · intro c hc
    rcases List.mem_cons.mp hc with h | h
    · subst h; decide
    · exact word_of_digit c ((natChars_digits (i + 1)).2 c h)

lemma GenInv_init (numProcesses : Nat) :
    GenInv ((List.range numProcesses).map
      (fun i => ("P" ++ natToString (i + 1), (⟨[], false⟩ : ProcState))))
      1 [] := by
  intro e he
  obtain ⟨i, hi, heq⟩ := List.mem_map.mp he
  subst heq
  refine ⟨pid_wordLike i, ?_⟩
  intro ptr hptr
  simp at hptr

lemma wfCheck_kills (ks : List (String × ProcState)) :
    ∀ st, (∀ e ∈ ks, wordLike e.1 = true) →
      wfCheck st (ks.map (fun e =>
        ({ type := .kill, pid := e.1 } : ProcessInstruction))) = some st := by
  induction ks with
  | nil => intro st _; rfl
  | cons e ks ih =>
    intro st hall
    show wfCheck st (⟨.kill, e.1, none, none⟩ ::
      ks.map (fun e => ({ type := .kill, pid := e.1 } : ProcessInstruction))) =
        some st
    simp only [wfCheck, wfStep_killOp_eval st e.1 (hall e (by simp))]
    exact ih st (fun x hx => hall x (by simp [hx]))

/-- **C8.** For every process count, operation count and rng stream in
[0, 1) (what seedrandom guarantees for every seed), parsing the
serialization of a successfully generated workload returns exactly the
generated instruction list: same types, pids, sizes and pointers in the
same order, with the sequentially reassigned ptrIds coinciding with the
generated ones. -/
theorem c8_generate_serialize_parse_roundtrip
    (numProcesses numOps : Nat) (rng : Nat → Rat)
    (hrng : ∀ i, 0 ≤ rng i ∧ rng i < 1)
    (ops : List ProcessInstruction)
    (hgen : generateOperations numProcesses numOps rng = some (.ok ops)) :
    (parseCsvToOperations (operationsToCsv ops)).1 = ops := by
  unfold generateOperations at hgen
  simp only [] at hgen
  split at hgen
  · simp at hgen
  · simp at hgen
  · rename_i ops0 statesR heq
    have hops : (ops0 ++ (statesR.filter
        (fun (e : String × ProcState) => !e.2.isKilled)).map
      (fun (e : String × ProcState) =>
        ({ type := .kill, pid := e.1 } : ProcessInstruction))).take numOps =
        ops := Except.ok.inj (Option.some.inj hgen)
    obtain ⟨nextPtr', pmap', hwf0, hinv0⟩ :=
      genLoop_wf numOps rng hrng (numOps + 1) 0 0 _ 1 [] [] ops0 statesR
        rfl (GenInv_init numProcesses) heq
    have hkill : wfCheck (1, []) (ops0 ++ (statesR.filter
        (fun (e : String × ProcState) => !e.2.isKilled)).map
      (fun (e : String × ProcState) =>
        ({ type := .kill, pid := e.1 } : ProcessInstruction))) =
        some (nextPtr', pmap') := by
      rw [wfCheck_append, hwf0]
      exact wfCheck_kills _ _ (fun e he =>
        (hinv0 e (List.mem_filter.mp he).1).1)
    obtain ⟨st2, htake⟩ := wfCheck_take _ (1, []) (nextPtr', pmap')
      numOps hkill
    rw [← hops]
    rw [wf_roundtrip _ st2 htake]

/-- Constant rng stream for the claim C8 witness. -/
def c8rng : Nat → Rat := fun _ => 0

/-- The workload generateOperations 1 3 c8rng produces. -/
def c8ops : List ProcessInstruction :=
  [⟨.new, "P1", some 100, some 1⟩,
   ⟨.new, "P1", some 100, some 2⟩,
   ⟨.new, "P1", some 100, some 3⟩]

/-- Witness for claim C8 at the constant-zero stream. -/
theorem c8_generate_serialize_parse_roundtrip_witness :
    (∀ i, 0 ≤ c8rng i ∧ c8rng i < 1) ∧
    generateOperations 1 3 c8rng = some (.ok c8ops) ∧
    (parseCsvToOperations (operationsToCsv c8ops)).1 = c8ops := by
  have hrng : ∀ i : Nat, 0 ≤ c8rng i ∧ c8rng i < 1 :=
    fun i => ⟨le_refl 0, by norm_num [c8rng]⟩
  have hgen : generateOperations 1 3 c8rng = some (.ok c8ops) := by
    unfold generateOperations
    norm_num [genLoop, genOpType, genRngIdx, c8rng, jsListGet, setPState,
      Rat.floor_def']
    rfl
  exact ⟨hrng, hgen,
    c8_generate_serialize_parse_roundtrip 1 3 c8rng hrng c8ops hgen⟩

end MmuSim
